import Mathlib

/-!
Verification of the archivesvc repository against its natural-language
specification.

This file shallowly embeds the parts of the code that the claims C1-C10
talk about:

  * `src/archivesvc/job.py`      — `DatabaseJob` lease guard (C1, C2)
  * `src/archivesvc/archive.py`  — `ArchiverThreadPool._retry_job` and
                                   `ArchiverThreadPool.process` (C3, C4)
  * `src/archivesvc/persist.py`  — `DefaultPersister` (C5, C6)
  * `src/archivesvc/stitch.py`   — `FFMpegSoxStitcher` (C7, C8)
  * `src/archivesvc/fetch.py`    — `TokboxFetcher.fetch` stream ordering (C9)
  * `src/archivesvc/waveform.py` — `FFMpegWaveformGenerator` (C10)

Conventions of the embedding:

  * Python ints are unbounded, so they are `Nat`/`Int` with no modular
    arithmetic.
  * Python floats produced by the external sox/ffmpeg tools are modelled
    as exact rationals `ℚ`; the sox stats output is an oracle function
    from filenames to stats records.
  * Database sessions and object-storage containers are explicit state
    records; raising an exception is `Except`.
  * Wall-clock times (`tz.utcnow()`, `func.current_timestamp()`) are an
    explicit `now : Nat` parameter.
-/

/-! Data model: `src/archivesvc/stream.py`. -/

/-- Constant `ArchiveStreamType.USER_VIDEO_STREAM` of `stream.py`; the
stream type constants are plain strings in the source, so we keep them
as strings. -/
def ArchiveStreamType.USER_VIDEO_STREAM : String := "USER_VIDEO_STREAM"

/-- Constant `ArchiveStreamType.USER_AUDIO_STREAM` of `stream.py`. -/
def ArchiveStreamType.USER_AUDIO_STREAM : String := "USER_AUDIO_STREAM"

/-- Constant `ArchiveStreamType.USERS_AUDIO_STREAM` of `stream.py`. -/
def ArchiveStreamType.USERS_AUDIO_STREAM : String := "USERS_AUDIO_STREAM"

/-- Constant `ArchiveStreamType.USERS_VIDEO_STREAM` of `stream.py`. -/
def ArchiveStreamType.USERS_VIDEO_STREAM : String := "USERS_VIDEO_STREAM"

/-- Constant `ArchiveStreamType.STITCHED_AUDIO_STREAM` of `stream.py`. -/
def ArchiveStreamType.STITCHED_AUDIO_STREAM : String := "STITCHED_AUDIO_STREAM"

/-- Class `ArchiveStream` of `stream.py`. `length` is the optional
measured length in milliseconds (a float in the source once measured,
hence `ℚ`); `waveform` holds the extracted amplitude vector (the source
stores its JSON encoding); `offset` is the stream offset in
milliseconds. -/
structure ArchiveStream where
  filename : String
  type : String
  length : Option ℚ
  users : List Nat := []
  offset : Int := 0
  waveform : Option (List ℚ) := none
  waveform_filename : Option String := none
deriving Repr, DecidableEq

/-- Class `ArchiveStreamManifest` of `stream.py`. -/
structure ArchiveStreamManifest where
  archive_streams : List ArchiveStream
deriving Repr, DecidableEq

/-! The `DatabaseJob` lease guard of `src/archivesvc/job.py`.
`DatabaseJob` is a context manager over one row of the jobs table.
We model the single job row it manipulates. -/

/-- One row of the jobs table, as manipulated by `job.py`.
`end_` stands for the source's `end` column (a Lean keyword). -/
structure JobRow where
  id : Nat
  owner : Option String
  start : Option Nat
  end_ : Option Nat
  successful : Option Bool
deriving Repr, DecidableEq

/-- Errors of the job-queue taxonomy (spec section 7). `jobOwned` is the
`AlreadyOwned` / `JobOwned` error that `archive.py` catches. -/
inductive JobError where
  | jobOwned
deriving Repr, DecidableEq

/-- Method `DatabaseJob._start` (job.py lines 27-45): the conditional
update `UPDATE .. SET owner=:me, start=:now WHERE id=:id AND owner IS
NULL` claims the row iff `owner` is null; `rows_updated` is the count.
The source then runs `if not rows_updated: pass` — it inspects the
count but raises nothing — and returns the row queried by id.
(The zero-rows branch is literally `pass` in the source.) -/
def DatabaseJob.start (owner : String) (now : Nat) (row : JobRow) :
    Except JobError JobRow :=
  let update :=
    if row.owner = none then
      (1, { row with owner := some owner, start := some now })
    else
      (0, row)
  let rows_updated := update.1
  let row1 := update.2
  -- source: `if not rows_updated: pass`
  if rows_updated = 0 then
    Except.ok row1
  else
    Except.ok row1

/-- Method `DatabaseJob._end` (job.py lines 47-50): sets `end` to the
current timestamp and `successful` to `True`, then commits. -/
def DatabaseJob.endJob (now : Nat) (row : JobRow) : JobRow :=
  { row with end_ := some now, successful := some true }

/-- Method `DatabaseJob._abort` (job.py lines 52-55): sets `end` to the
current timestamp and `successful` to `True` (sic — the source assigns
`True` on the abort path as well), then commits. -/
def DatabaseJob.abortJob (now : Nat) (row : JobRow) : JobRow :=
  { row with end_ := some now, successful := some true }

/-- Method `DatabaseJob.__exit__` (job.py lines 21-25): on an exception
(`exc_type is not None`) calls `_abort`, otherwise `_end`. -/
def DatabaseJob.exitGuard (excRaised : Bool) (now : Nat) (row : JobRow) :
    JobRow :=
  if excRaised then DatabaseJob.abortJob now row
  else DatabaseJob.endJob now row

/-- A concrete job row that is already owned by another worker. -/
def ownedRow : JobRow :=
  { id := 1, owner := some ("other-worker"), start := some 3,
    end_ := none, successful := none }

/-- A concrete unowned job row. -/
def freshRow : JobRow :=
  { id := 2, owner := none, start := none, end_ := none,
    successful := none }

/-- C1: the claim states that entering the lease guard for an already
owned row raises `AlreadyOwned` when the conditional update reports
zero updated rows.  The code (`DatabaseJob._start`, job.py lines 39-40)
instead runs `if not rows_updated: pass` and returns normally: on the
concrete owned row the entry succeeds with the row unchanged and no
`JobOwned` error is raised.  This exhibits the code bug at the failing
input. -/
theorem c1_start_owned_no_error :
    DatabaseJob.start "archivesvc" 5 ownedRow = Except.ok ownedRow ∧
      ∀ e : JobError, DatabaseJob.start "archivesvc" 5 ownedRow ≠ Except.error e := by
  constructor
  · rfl
  · intro e h
    cases h

/-- C2: the claim states that an error exit of the lease guard sets the
end time and `successful = false`.  The code (`DatabaseJob._abort`,
job.py lines 52-55) sets `successful = True` on the error path — the
same assignment as `_end` — so on the concrete failing input the exit
records the job as successful.  This exhibits the code bug at the
failing input (the no-error half of the claim does hold and is also
evaluated here). -/
theorem c2_abort_marks_successful :
    (DatabaseJob.exitGuard true 9 freshRow).end_ = some 9 ∧
      (DatabaseJob.exitGuard true 9 freshRow).successful = some true ∧
      (DatabaseJob.exitGuard false 9 freshRow).end_ = some 9 ∧
      (DatabaseJob.exitGuard false 9 freshRow).successful = some true := by
  refine ⟨rfl, rfl, rfl, rfl⟩

/-! Worker pool of `src/archivesvc/archive.py`: retry scheduling
(`ArchiverThreadPool._retry_job`) and the per-job pipeline driver
(`ArchiverThreadPool.process`). -/

/-- Model `ChatArchiveJob` row (the jobs table of spec section 6), with
the fields that `_retry_job` reads and writes. `data` is the opaque
provider payload. -/
structure ChatArchiveJob where
  chat_id : Nat
  created : Option Nat := none
  not_before : Option Nat := none
  data : String := ""
  retries_remaining : Nat := 0
deriving Repr, DecidableEq

/-- Method `ArchiverThreadPool._retry_job` (archive.py lines 65-100):
if the failed job's `retries_remaining` is truthy (nonzero), insert a
new `ChatArchiveJob` with the same `chat_id` and `data`,
`not_before = tz.utcnow() + timedelta(seconds=job_retry_seconds)`, and
`retries_remaining - 1`; otherwise create nothing and log the failure
at error level.  Returns the created retry row (if any) and whether the
exhausted-retries error log was emitted. -/
def ArchiverThreadPool.retryJob (job_retry_seconds now : Nat)
    (job : ChatArchiveJob) : Option ChatArchiveJob × Bool :=
  if job.retries_remaining ≠ 0 then
    let not_before := now + job_retry_seconds
    (some { chat_id := job.chat_id,
            created := some now,
            not_before := some not_before,
            data := job.data,
            retries_remaining := job.retries_remaining - 1 }, false)
  else
    (none, true)

/-- Stage errors of the pipeline (spec section 7 taxonomy). -/
inductive StageError where
  | fetcherError
  | stitcherError
  | waveformGeneratorError
  | persisterError
deriving Repr, DecidableEq

/-- Trace of one `ArchiverThreadPool.process` run: which stages were
invoked, whether the guarded body completed without error, the retry
row handed to `_retry_job`'s insert (if any), and whether a failure was
logged at error level. -/
structure RunTrace where
  stitchInvoked : Bool
  waveformInvoked : Bool
  persistInvoked : Bool
  deleteInvoked : Bool
  bodySucceeded : Bool
  retryRow : Option ChatArchiveJob
  errorLogged : Bool
deriving Repr, DecidableEq

/-- Failure path of `ArchiverThreadPool.process` (archive.py lines
312-317): `self.log.error(..)` then `self._retry_job(job)`. -/
def ArchiverThreadPool.processFailure (job_retry_seconds now : Nat)
    (job : ChatArchiveJob) (stitchI waveformI persistI deleteI : Bool) :
    RunTrace :=
  { stitchInvoked := stitchI, waveformInvoked := waveformI,
    persistInvoked := persistI, deleteInvoked := deleteI,
    bodySucceeded := false,
    retryRow := (ArchiverThreadPool.retryJob job_retry_seconds now job).1,
    errorLogged := true }

/-- Method `ArchiverThreadPool.process` (archive.py lines 251-320),
with the stage calls (which go through worker pools and external
processes) abstracted as `Except` results handed in as oracles.  The
control flow is the source's: fetch; if the manifest is `None` or has
no streams, log and return (the guard then ends the job successfully);
otherwise stitch, generate the waveform, persist, and delete the
fetcher streams in order, any stage error escaping to the
`except Exception` handler which logs at error level and calls
`_retry_job`. -/
def ArchiverThreadPool.process (job_retry_seconds now : Nat)
    (job : ChatArchiveJob)
    (fetchRes : Except StageError (Option ArchiveStreamManifest))
    (stitchRes : Except StageError (List ArchiveStream))
    (waveformRes : Except StageError Unit)
    (persistRes : Except StageError Unit)
    (deleteRes : Except StageError Unit) : RunTrace :=
  match fetchRes with
  | Except.error _ =>
      ArchiverThreadPool.processFailure job_retry_seconds now job
        false false false false
  | Except.ok manifestOpt =>
      match manifestOpt with
      | none =>
          -- source: "No archives for chat_id" info log, then return
          { stitchInvoked := false, waveformInvoked := false,
            persistInvoked := false, deleteInvoked := false,
            bodySucceeded := true, retryRow := none, errorLogged := false }
      | some manifest =>
          if manifest.archive_streams = [] then
            { stitchInvoked := false, waveformInvoked := false,
              persistInvoked := false, deleteInvoked := false,
              bodySucceeded := true, retryRow := none, errorLogged := false }
          else
            match stitchRes with
            | Except.error _ =>
                ArchiverThreadPool.processFailure job_retry_seconds now job
                  true false false false
            | Except.ok _ =>
                match waveformRes with
                | Except.error _ =>
                    ArchiverThreadPool.processFailure job_retry_seconds now job
                      true true false false
                | Except.ok _ =>
                    match persistRes with
                    | Except.error _ =>
                        ArchiverThreadPool.processFailure job_retry_seconds
                          now job true true true false
                    | Except.ok _ =>
                        match deleteRes with
                        | Except.error _ =>
                            ArchiverThreadPool.processFailure job_retry_seconds
                              now job true true true true
                        | Except.ok _ =>
                            { stitchInvoked := true, waveformInvoked := true,
                              persistInvoked := true, deleteInvoked := true,
                              bodySucceeded := true, retryRow := none,
                              errorLogged := false }

/-- Decides whether a pipeline run with the given stage oracles fails
with a (non-benign) error: some executed stage raises. -/
def pipelineFails (fetchRes : Except StageError (Option ArchiveStreamManifest))
    (stitchRes : Except StageError (List ArchiveStream))
    (waveformRes : Except StageError Unit)
    (persistRes : Except StageError Unit)
    (deleteRes : Except StageError Unit) : Bool :=
  match fetchRes with
  | Except.error _ => true
  | Except.ok none => false
  | Except.ok (some manifest) =>
      if manifest.archive_streams = [] then false
      else
        match stitchRes with
        | Except.error _ => true
        | Except.ok _ =>
            match waveformRes with
            | Except.error _ => true
            | Except.ok _ =>
                match persistRes with
                | Except.error _ => true
                | Except.ok _ =>
                    match deleteRes with
                    | Except.error _ => true
                    | Except.ok _ => false

/-- C3: when a pipeline run fails with a non-benign error, a retry row
is created iff the failed job's `retries_remaining` is positive; the
retry row carries the same `chat_id` and `data`, `not_before` equal to
now plus the configured retry delay, and `retries_remaining`
decremented by one; with zero retries remaining no retry row is created
and the failure is logged at error level. -/
theorem c3_retry_on_failure (job_retry_seconds now : Nat)
    (job : ChatArchiveJob)
    (fetchRes : Except StageError (Option ArchiveStreamManifest))
    (stitchRes : Except StageError (List ArchiveStream))
    (waveformRes : Except StageError Unit)
    (persistRes : Except StageError Unit)
    (deleteRes : Except StageError Unit)
    (hfail : pipelineFails fetchRes stitchRes waveformRes persistRes
      deleteRes = true) :
    let t := ArchiverThreadPool.process job_retry_seconds now job fetchRes
      stitchRes waveformRes persistRes deleteRes
    (0 < job.retries_remaining →
        t.retryRow = some { chat_id := job.chat_id,
                            created := some now,
                            not_before := some (now + job_retry_seconds),
                            data := job.data,
                            retries_remaining := job.retries_remaining - 1 }) ∧
      (job.retries_remaining = 0 →
        t.retryRow = none ∧ t.errorLogged = true) := by
  intro t
  have htrace : t.retryRow =
      (ArchiverThreadPool.retryJob job_retry_seconds now job).1 ∧
      t.errorLogged = true := by
    unfold pipelineFails at hfail
    unfold t
    unfold ArchiverThreadPool.process
    cases fetchRes with
    | error e => exact ⟨rfl, rfl⟩
    | ok manifestOpt =>
      cases manifestOpt with
      | none => simp at hfail
      | some manifest =>
        by_cases hm : manifest.archive_streams = []
        · simp [hm] at hfail
        · simp only [hm, if_neg hm, if_false] at hfail ⊢
          cases stitchRes with
          | error e => exact ⟨rfl, rfl⟩
          | ok s =>
            cases waveformRes with
            | error e => exact ⟨rfl, rfl⟩
            | ok w =>
              cases persistRes with
              | error e => exact ⟨rfl, rfl⟩
              | ok p =>
                cases deleteRes with
                | error e => exact ⟨rfl, rfl⟩
                | ok d => simp at hfail
  constructor
  · intro hpos
    rw [htrace.1]
    unfold ArchiverThreadPool.retryJob
    have : job.retries_remaining ≠ 0 := Nat.pos_iff_ne_zero.mp hpos
    simp [this]
  · intro hzero
    refine ⟨?_, htrace.2⟩
    rw [htrace.1]
    unfold ArchiverThreadPool.retryJob
    simp [hzero]

/-- Witness for C3 at a concrete input: a fetch failure on a job with
two retries remaining creates the expected retry row, and the same
failure on a job with no retries remaining creates none and logs an
error. -/
theorem c3_retry_on_failure_witness :
    pipelineFails (Except.error StageError.fetcherError)
      (Except.ok []) (Except.ok ()) (Except.ok ()) (Except.ok ()) = true ∧
    (ArchiverThreadPool.process 300 1000
        { chat_id := 42, data := "payload", retries_remaining := 2 }
        (Except.error StageError.fetcherError)
        (Except.ok []) (Except.ok ()) (Except.ok ()) (Except.ok ())).retryRow =
      some { chat_id := 42, created := some 1000, not_before := some 1300,
             data := "payload", retries_remaining := 1 } := by
  refine ⟨by decide, ?_⟩
  have h := c3_retry_on_failure 300 1000
    { chat_id := 42, data := "payload", retries_remaining := 2 }
    (Except.error StageError.fetcherError)
    (Except.ok []) (Except.ok ()) (Except.ok ()) (Except.ok ())
    (by decide)
  exact h.1 (by decide)

/-- C4: when the fetch stage returns no manifest, or a manifest with an
empty stream list, the pipeline run terminates successfully without
invoking the stitcher, the waveform generator, the persister, or
provider-side deletion. -/
theorem c4_empty_manifest_short_circuit (job_retry_seconds now : Nat)
    (job : ChatArchiveJob)
    (fetchRes : Except StageError (Option ArchiveStreamManifest))
    (stitchRes : Except StageError (List ArchiveStream))
    (waveformRes : Except StageError Unit)
    (persistRes : Except StageError Unit)
    (deleteRes : Except StageError Unit)
    (hempty : fetchRes = Except.ok none ∨
      ∃ manifest, fetchRes = Except.ok (some manifest) ∧
        manifest.archive_streams = []) :
    ArchiverThreadPool.process job_retry_seconds now job fetchRes stitchRes
        waveformRes persistRes deleteRes =
      { stitchInvoked := false, waveformInvoked := false,
        persistInvoked := false, deleteInvoked := false,
        bodySucceeded := true, retryRow := none, errorLogged := false } := by
  rcases hempty with h | ⟨manifest, h, hm⟩
  · subst h
    rfl
  · subst h
    unfold ArchiverThreadPool.process
    simp [hm]

/-- Witness for C4 at a concrete input: an empty manifest short-circuits
the run as a success with no downstream stage invoked. -/
theorem c4_empty_manifest_short_circuit_witness :
    ArchiverThreadPool.process 300 1000
        { chat_id := 99, retries_remaining := 3 }
        (Except.ok (some { archive_streams := [] }))
        (Except.error StageError.stitcherError)
        (Except.error StageError.waveformGeneratorError)
        (Except.error StageError.persisterError)
        (Except.error StageError.fetcherError) =
      { stitchInvoked := false, waveformInvoked := false,
        persistInvoked := false, deleteInvoked := false,
        bodySucceeded := true, retryRow := none, errorLogged := false } := by
  exact c4_empty_manifest_short_circuit 300 1000
    { chat_id := 99, retries_remaining := 3 }
    (Except.ok (some { archive_streams := [] }))
    (Except.error StageError.stitcherError)
    (Except.error StageError.waveformGeneratorError)
    (Except.error StageError.persisterError)
    (Except.error StageError.fetcherError)
    (Or.inr ⟨{ archive_streams := [] }, rfl, rfl⟩)

/-! Persister of `src/archivesvc/persist.py` (`DefaultPersister`).
Object-storage containers are lists of stored object paths (saving
appends); the database session is explicit: committed rows plus the
rows pending in the session, which a rollback discards. -/

/-- Implementation of `os.path.splitext`: index of the last occurrence
of a character in a list. -/
def lastIndexOf (c : Char) : List Char → Option Nat
  | [] => none
  | a :: t =>
    match lastIndexOf c t with
    | some i => some (i + 1)
    | none => if a = c then some 0 else none

/-- Implementation of `os.path.splitext` (posixpath): split off the
extension at the last dot of the basename, unless every character of
the basename before that dot is itself a dot (leading dots do not start
an extension). -/
def splitext (p : String) : String × String :=
  let cs := p.toList
  let sepIndex : Int :=
    match lastIndexOf '/' cs with
    | some i => (i : Int)
    | none => -1
  let dotIndex : Int :=
    match lastIndexOf '.' cs with
    | some i => (i : Int)
    | none => -1
  if sepIndex < dotIndex then
    let d := dotIndex.toNat
    let firstIdx := (sepIndex + 1).toNat
    if ((cs.drop firstIdx).take (d - firstIdx)).any (fun ch => ch ≠ '.') then
      ((cs.take d).asString, (cs.drop d).asString)
    else (p, "")
  else (p, "")

/-- Row of the `ChatArchive` table as built by `DefaultPersister.persist`
(persist.py lines 206-213). -/
structure ChatArchiveRow where
  chat_session_id : Nat
  type_id : Nat
  path : String
  mime_type_id : Nat
  public : Bool
  length : Option ℚ
  offset : Int
deriving Repr, DecidableEq

/-- Database state visible to the persister: the `ChatArchiveType` and
`MimeType` lookup tables (name / extension to id), the committed
`ChatArchive` rows and the committed `ChatArchiveUser` rows.  A
`ChatArchiveUser` row is keyed by the user id and the path of its
archive row (paths are unique, so the path stands in for the row id). -/
structure DbState where
  chat_archive_types : List (String × Nat)
  mime_types : List (String × Nat)
  chat_archives : List ChatArchiveRow
  chat_archive_users : List (Nat × String)
deriving Repr, DecidableEq

/-- Lookup of an id by key in a two-column table (`filter_by(..).one()` /
`filter_by(..).first()`); `none` when no row matches, which the source
surfaces as an exception. -/
def lookupId (table : List (String × Nat)) (key : String) : Option Nat :=
  (table.find? (fun kv => kv.1 = key)).map (fun kv => kv.2)

/-- Exception `ArchivePersisterException` of persist.py. -/
inductive PersistError where
  | archivePersisterException (msg : String)
deriving Repr, DecidableEq

/-- State threaded through `DefaultPersister.persist`: the two optional
object-storage containers (public and private; `none` models a
persister constructed without that pool) and the database. -/
structure PersistState where
  public_storage : Option (List String)
  private_storage : Option (List String)
  db : DbState
deriving Repr, DecidableEq

/-- Shared loop body of `_upload_public_archive_streams` and
`_upload_private_archive_streams` (persist.py lines 88-99 and 116-127):
for each stream matching the condition, skip it when the destination
already holds an object at that path, otherwise save it there. -/
def DefaultPersister.uploadStep (cond : ArchiveStream → Bool)
    (acc : List String) (stream : ArchiveStream) : List String :=
  if cond stream then
    if acc.contains stream.filename then acc
    else acc ++ [stream.filename]
  else acc

/-- Fold of `DefaultPersister.uploadStep` over the streams of one
upload pass. -/
def DefaultPersister.uploadStreamsWhere (cond : ArchiveStream → Bool)
    (objects : List String) (archive_streams : List ArchiveStream) :
    List String :=
  archive_streams.foldl (DefaultPersister.uploadStep cond) objects

/-- Method `DefaultPersister._upload_public_archive_streams` (persist.py
lines 73-99): a no-op when no public pool is configured; otherwise
uploads the streams of type `STITCHED_AUDIO_STREAM`. -/
def DefaultPersister.uploadPublicArchiveStreams
    (pool : Option (List String)) (archive_streams : List ArchiveStream) :
    Option (List String) :=
  match pool with
  | none => none
  | some objects =>
      some (DefaultPersister.uploadStreamsWhere
        (fun stream => stream.type == ArchiveStreamType.STITCHED_AUDIO_STREAM)
        objects archive_streams)

/-- Method `DefaultPersister._upload_private_archive_streams` (persist.py
lines 101-127): a no-op when no private pool is configured; otherwise
uploads the streams whose type is not `STITCHED_AUDIO_STREAM`. -/
def DefaultPersister.uploadPrivateArchiveStreams
    (pool : Option (List String)) (archive_streams : List ArchiveStream) :
    Option (List String) :=
  match pool with
  | none => none
  | some objects =>
      some (DefaultPersister.uploadStreamsWhere
        (fun stream => stream.type != ArchiveStreamType.STITCHED_AUDIO_STREAM)
        objects archive_streams)

/-- Database half of `DefaultPersister.persist` (persist.py lines
188-221): for each stream, look up its `ChatArchiveType` id and its
`MimeType` id (both raise when missing), reject a path that already
exists as a `ChatArchive` path (committed rows plus rows pending in
this call's session), then stage one `ChatArchive` row and one
`ChatArchiveUser` row per user.  Returns the staged rows to commit. -/
def DefaultPersister.persistLoop (db : DbState) (chat_session_id : Nat) :
    List ArchiveStream → List ChatArchiveRow → List (Nat × String) →
    Except String (List ChatArchiveRow × List (Nat × String))
  | [], pendingArchives, pendingUsers =>
      Except.ok (pendingArchives, pendingUsers)
  | stream :: rest, pendingArchives, pendingUsers =>
      match lookupId db.chat_archive_types stream.type with
      | none => Except.error ("no ChatArchiveType row")
      | some chat_archive_type_id =>
        match lookupId db.mime_types (splitext stream.filename).2 with
        | none => Except.error ("no MimeType row")
        | some mime_type_id =>
          if ((db.chat_archives ++ pendingArchives).filter
                (fun r => r.path = stream.filename)).length ≠ 0 then
            Except.error ("archive already exists")
          else
            let is_public : Bool :=
              if stream.type = ArchiveStreamType.STITCHED_AUDIO_STREAM then
                true
              else
                false
            let archive : ChatArchiveRow :=
              { chat_session_id := chat_session_id,
                type_id := chat_archive_type_id,
                path := stream.filename,
                mime_type_id := mime_type_id,
                public := is_public,
                length := stream.length,
                offset := stream.offset }
            DefaultPersister.persistLoop db chat_session_id rest
              (pendingArchives ++ [archive])
              (pendingUsers ++ stream.users.map
                (fun user_id => (user_id, stream.filename)))

/-- Method `DefaultPersister.persist` (persist.py lines 172-231): upload
the public and private streams, then stage the database rows; commit
them all at once on success, and on any error roll the session back
(discarding every staged row) and raise
`ArchivePersisterException`. -/
def DefaultPersister.persist (st : PersistState) (chat_session_id : Nat)
    (archive_streams : List ArchiveStream) :
    Except PersistError Unit × PersistState :=
  let st1 : PersistState :=
    { st with
      public_storage := DefaultPersister.uploadPublicArchiveStreams
        st.public_storage archive_streams,
      private_storage := DefaultPersister.uploadPrivateArchiveStreams
        st.private_storage archive_streams }
  match DefaultPersister.persistLoop st1.db chat_session_id
      archive_streams [] [] with
  | Except.ok (pendingArchives, pendingUsers) =>
      (Except.ok (),
        { st1 with db :=
          { st1.db with
            chat_archives := st1.db.chat_archives ++ pendingArchives,
            chat_archive_users := st1.db.chat_archive_users ++ pendingUsers } })
  | Except.error msg =>
      (Except.error (PersistError.archivePersisterException msg), st1)

/-- Membership of an object path in an optional storage container. -/
def poolHasObject (pool : Option (List String)) (f : String) : Prop :=
  match pool with
  | none => False
  | some objects => f ∈ objects

/-- Number of copies of an object path in an optional storage
container. -/
def poolObjectCount (pool : Option (List String)) (f : String) : Nat :=
  match pool with
  | none => 0
  | some objects => objects.count f

/-- One upload step never removes an object from the container. -/
theorem uploadStep_mem_mono (cond : ArchiveStream → Bool)
    (acc : List String) (stream : ArchiveStream) (f : String)
    (h : f ∈ acc) : f ∈ DefaultPersister.uploadStep cond acc stream := by
  unfold DefaultPersister.uploadStep
  split
  · split
    · exact h
    · exact List.mem_append_left _ h
  · exact h

/-- After an upload step for a stream matching the condition, the
container holds the stream's path. -/
theorem uploadStep_mem_self (cond : ArchiveStream → Bool)
    (acc : List String) (stream : ArchiveStream) (hc : cond stream = true) :
    stream.filename ∈ DefaultPersister.uploadStep cond acc stream := by
  unfold DefaultPersister.uploadStep
  rw [hc, if_pos rfl]
  split
  · rename_i hm
    simpa using hm
  · exact List.mem_append_right _ (List.mem_singleton.mpr rfl)

/-- An upload step does not change the number of copies of any path the
container already holds (existing objects are skipped, and a fresh save
cannot collide with an existing path). -/
theorem uploadStep_count_of_mem (cond : ArchiveStream → Bool)
    (acc : List String) (stream : ArchiveStream) (f : String)
    (h : f ∈ acc) :
    (DefaultPersister.uploadStep cond acc stream).count f = acc.count f := by
  unfold DefaultPersister.uploadStep
  split
  · split
    · rfl
    · rename_i hm
      have hnotmem : stream.filename ∉ acc := by
        intro hmem
        exact hm (by simpa using hmem)
      have hne : stream.filename ≠ f := fun he => hnotmem (he ▸ h)
      rw [List.count_append]
      simp [List.count_singleton, hne]
  · rfl

/-- An upload pass never removes an object: membership in the container
is preserved. -/
theorem uploadStreamsWhere_mem_mono (cond : ArchiveStream → Bool)
    (objects : List String) (streams : List ArchiveStream) (f : String)
    (h : f ∈ objects) :
    f ∈ DefaultPersister.uploadStreamsWhere cond objects streams := by
  induction streams generalizing objects with
  | nil => exact h
  | cons s rest ih =>
    simp only [DefaultPersister.uploadStreamsWhere, List.foldl_cons] at ih ⊢
    exact ih _ (uploadStep_mem_mono cond objects s f h)

/-- Every stream matching the upload condition ends up stored in the
container. -/
theorem uploadStreamsWhere_mem_of_cond (cond : ArchiveStream → Bool)
    (objects : List String) (streams : List ArchiveStream)
    (s : ArchiveStream) (hs : s ∈ streams) (hc : cond s = true) :
    s.filename ∈ DefaultPersister.uploadStreamsWhere cond objects streams := by
  induction streams generalizing objects with
  | nil => cases hs
  | cons a rest ih =>
    rcases List.mem_cons.mp hs with rfl | hs2
    · simp only [DefaultPersister.uploadStreamsWhere, List.foldl_cons]
      exact uploadStreamsWhere_mem_mono cond _ rest s.filename
        (uploadStep_mem_self cond objects s hc)
    · simp only [DefaultPersister.uploadStreamsWhere, List.foldl_cons] at ih ⊢
      exact ih _ hs2

/-- An upload pass skips paths the container already holds: the number
of stored copies of such a path is unchanged (no re-upload, no
duplicate). -/
theorem uploadStreamsWhere_count_of_mem (cond : ArchiveStream → Bool)
    (objects : List String) (streams : List ArchiveStream) (f : String)
    (h : f ∈ objects) :
    (DefaultPersister.uploadStreamsWhere cond objects streams).count f =
      objects.count f := by
  induction streams generalizing objects with
  | nil => rfl
  | cons s rest ih =>
    simp only [DefaultPersister.uploadStreamsWhere, List.foldl_cons] at ih ⊢
    rw [ih _ (uploadStep_mem_mono cond objects s f h)]
    exact uploadStep_count_of_mem cond objects s f h

/-- Rows staged earlier in a persist call survive to the end of the
call's loop. -/
theorem persistLoop_mono (db : DbState) (chat_session_id : Nat)
    (streams : List ArchiveStream) (pa pa2 : List ChatArchiveRow)
    (pu pu2 : List (Nat × String))
    (h : DefaultPersister.persistLoop db chat_session_id streams pa pu =
      Except.ok (pa2, pu2)) :
    ∀ r ∈ pa, r ∈ pa2 := by
  induction streams generalizing pa pu with
  | nil =>
    simp only [DefaultPersister.persistLoop] at h
    cases h
    exact fun r hr => hr
  | cons s rest ih =>
    simp only [DefaultPersister.persistLoop] at h
    split at h
    · cases h
    · split at h
      · cases h
      · split at h
        · cases h
        · intro r hr
          exact ih _ _ h r (List.mem_append_left _ hr)

/-- The loop of a successful persist call stages, for every input
stream, a `ChatArchive` row with that stream's filename as path and
the public flag equal to whether the stream is stitched audio. -/
theorem persistLoop_rows (db : DbState) (chat_session_id : Nat)
    (streams : List ArchiveStream) (pa pa2 : List ChatArchiveRow)
    (pu pu2 : List (Nat × String))
    (h : DefaultPersister.persistLoop db chat_session_id streams pa pu =
      Except.ok (pa2, pu2)) :
    ∀ s ∈ streams, ∃ r ∈ pa2, r.path = s.filename ∧
      r.public = (if s.type = ArchiveStreamType.STITCHED_AUDIO_STREAM
        then true else false) := by
  induction streams generalizing pa pu with
  | nil => intro s hs; cases hs
  | cons a rest ih =>
    simp only [DefaultPersister.persistLoop] at h
    split at h
    · cases h
    · split at h
      · cases h
      · split at h
        · cases h
        · intro s hs
          rcases List.mem_cons.mp hs with rfl | hs2
          · refine ⟨_, persistLoop_mono _ _ _ _ _ _ _ h _
              (List.mem_append_right _ (List.mem_singleton.mpr rfl)), rfl, rfl⟩
          · exact ih _ _ h s hs2

/-- A successful persist loop implies no input stream's filename was
already a committed `ChatArchive` path. -/
theorem persistLoop_no_committed_dup (db : DbState) (chat_session_id : Nat)
    (streams : List ArchiveStream) (pa pa2 : List ChatArchiveRow)
    (pu pu2 : List (Nat × String))
    (h : DefaultPersister.persistLoop db chat_session_id streams pa pu =
      Except.ok (pa2, pu2)) :
    ∀ s ∈ streams, ∀ r ∈ db.chat_archives, r.path ≠ s.filename := by
  induction streams generalizing pa pu with
  | nil => intro s hs; cases hs
  | cons a rest ih =>
    simp only [DefaultPersister.persistLoop] at h
    split at h
    · cases h
    · split at h
      · cases h
      · rename_i hlen
        split at h
        · cases h
        · rename_i hcheck
          intro s hs
          rcases List.mem_cons.mp hs with rfl | hs2
          · intro r hr he
            apply hcheck
            have hmem : r ∈ (db.chat_archives ++ pa).filter
                (fun r2 => decide (r2.path = s.filename)) := by
              apply List.mem_filter.mpr
              exact ⟨List.mem_append_left _ hr, by simp [he]⟩
            intro hlen0
            rw [List.length_eq_zero] at hlen0
            rw [hlen0] at hmem
            cases hmem
          · exact ih _ _ h s hs2

/-- Unfolding of `DefaultPersister.persist` when the database loop
fails: the error is wrapped in `ArchivePersisterException` and the
rollback leaves the database exactly as before the call. -/
theorem persist_error_state (st : PersistState) (chat_session_id : Nat)
    (archive_streams : List ArchiveStream) (msg : String)
    (h : DefaultPersister.persistLoop st.db chat_session_id
      archive_streams [] [] = Except.error msg) :
    (DefaultPersister.persist st chat_session_id archive_streams).1 =
      Except.error (PersistError.archivePersisterException msg) ∧
    (DefaultPersister.persist st chat_session_id archive_streams).2.db =
      st.db := by
  unfold DefaultPersister.persist
  dsimp only
  rw [h]
  exact ⟨rfl, rfl⟩

/-- Unfolding of `DefaultPersister.persist` when the database loop
succeeds: the staged rows are committed in one batch on top of the
previous database state, and both containers hold the uploads. -/
theorem persist_ok_state (st : PersistState) (chat_session_id : Nat)
    (archive_streams : List ArchiveStream)
    (pendingArchives : List ChatArchiveRow)
    (pendingUsers : List (Nat × String))
    (h : DefaultPersister.persistLoop st.db chat_session_id
      archive_streams [] [] = Except.ok (pendingArchives, pendingUsers)) :
    DefaultPersister.persist st chat_session_id archive_streams =
      (Except.ok (),
        { public_storage := DefaultPersister.uploadPublicArchiveStreams
            st.public_storage archive_streams,
          private_storage := DefaultPersister.uploadPrivateArchiveStreams
            st.private_storage archive_streams,
          db := { st.db with
            chat_archives := st.db.chat_archives ++ pendingArchives,
            chat_archive_users :=
              st.db.chat_archive_users ++ pendingUsers } }) := by
  unfold DefaultPersister.persist
  dsimp only
  rw [h]

/-- The rollback of `DefaultPersister.persist`: whenever the call does
not succeed, the database is left exactly as it was (no `ChatArchive`
or `ChatArchiveUser` row of the failed call is committed). -/
theorem persist_rollback (st : PersistState) (chat_session_id : Nat)
    (archive_streams : List ArchiveStream)
    (h : (DefaultPersister.persist st chat_session_id
      archive_streams).1.isOk = false) :
    (DefaultPersister.persist st chat_session_id archive_streams).2.db =
      st.db := by
  cases hl : DefaultPersister.persistLoop st.db chat_session_id
      archive_streams [] [] with
  | ok pr =>
    obtain ⟨pa, pu⟩ := pr
    rw [persist_ok_state st chat_session_id archive_streams pa pu hl] at h
    exact Bool.noConfusion h
  | error msg =>
    exact (persist_error_state st chat_session_id archive_streams msg hl).2

/-- A public upload pass stores every stitched-audio stream when a
public pool is configured. -/
theorem uploadPublic_mem (pool : Option (List String))
    (archive_streams : List ArchiveStream) (s : ArchiveStream)
    (hs : s ∈ archive_streams)
    (hty : s.type = ArchiveStreamType.STITCHED_AUDIO_STREAM)
    (hpool : pool.isSome = true) :
    poolHasObject
      (DefaultPersister.uploadPublicArchiveStreams pool archive_streams)
      s.filename := by
  obtain ⟨P, hP⟩ := Option.isSome_iff_exists.mp hpool
  subst hP
  show s.filename ∈ DefaultPersister.uploadStreamsWhere _ P archive_streams
  exact uploadStreamsWhere_mem_of_cond _ P archive_streams s hs
    (by simpa using hty)

/-- A private upload pass stores every non-stitched stream when a
private pool is configured. -/
theorem uploadPrivate_mem (pool : Option (List String))
    (archive_streams : List ArchiveStream) (s : ArchiveStream)
    (hs : s ∈ archive_streams)
    (hty : s.type ≠ ArchiveStreamType.STITCHED_AUDIO_STREAM)
    (hpool : pool.isSome = true) :
    poolHasObject
      (DefaultPersister.uploadPrivateArchiveStreams pool archive_streams)
      s.filename := by
  obtain ⟨P, hP⟩ := Option.isSome_iff_exists.mp hpool
  subst hP
  show s.filename ∈ DefaultPersister.uploadStreamsWhere _ P archive_streams
  exact uploadStreamsWhere_mem_of_cond _ P archive_streams s hs
    (by simpa using hty)

/-- A public upload pass leaves the copy count of an already stored
path unchanged. -/
theorem uploadPublic_count (pool : Option (List String))
    (archive_streams : List ArchiveStream) (f : String)
    (hf : poolHasObject pool f) :
    poolObjectCount
        (DefaultPersister.uploadPublicArchiveStreams pool archive_streams)
        f = poolObjectCount pool f := by
  cases pool with
  | none => rfl
  | some P => exact uploadStreamsWhere_count_of_mem _ P archive_streams f hf

/-- A private upload pass leaves the copy count of an already stored
path unchanged. -/
theorem uploadPrivate_count (pool : Option (List String))
    (archive_streams : List ArchiveStream) (f : String)
    (hf : poolHasObject pool f) :
    poolObjectCount
        (DefaultPersister.uploadPrivateArchiveStreams pool archive_streams)
        f = poolObjectCount pool f := by
  cases pool with
  | none => rfl
  | some P => exact uploadStreamsWhere_count_of_mem _ P archive_streams f hf

/-- C5: in every successful persist call, each input stream of type
STITCHED_AUDIO is uploaded to the public container (when one is
configured) and its `ChatArchive` row carries `public = true`; every
stream of any other type is uploaded to the private container (when one
is configured) with `public = false`; and uploads are skipped when the
destination already holds an object at that path, so the number of
stored copies of a pre-existing path never changes. -/
theorem c5_persist_public_private (st : PersistState)
    (chat_session_id : Nat) (archive_streams : List ArchiveStream)
    (st2 : PersistState)
    (hok : DefaultPersister.persist st chat_session_id archive_streams =
      (Except.ok (), st2)) :
    (∀ s ∈ archive_streams,
        s.type = ArchiveStreamType.STITCHED_AUDIO_STREAM →
        (st.public_storage.isSome = true →
          poolHasObject st2.public_storage s.filename) ∧
        ∃ r ∈ st2.db.chat_archives, r.path = s.filename ∧
          r.public = true) ∧
    (∀ s ∈ archive_streams,
        s.type ≠ ArchiveStreamType.STITCHED_AUDIO_STREAM →
        (st.private_storage.isSome = true →
          poolHasObject st2.private_storage s.filename) ∧
        ∃ r ∈ st2.db.chat_archives, r.path = s.filename ∧
          r.public = false) ∧
    (∀ f, poolHasObject st.public_storage f →
        poolObjectCount st2.public_storage f =
          poolObjectCount st.public_storage f) ∧
    (∀ f, poolHasObject st.private_storage f →
        poolObjectCount st2.private_storage f =
          poolObjectCount st.private_storage f) := by
  rcases hl : DefaultPersister.persistLoop st.db chat_session_id
      archive_streams [] [] with msg | ⟨pa, pu⟩
  · have h1 := (persist_error_state st chat_session_id archive_streams
      msg hl).1
    rw [hok] at h1
    simp at h1
  · have hval := persist_ok_state st chat_session_id archive_streams pa pu hl
    rw [hok] at hval
    have hst2 := (Prod.mk.injEq _ _ _ _).mp hval |>.2
    subst hst2
    refine ⟨?_, ?_, ?_, ?_⟩
    · intro s hs hty
      refine ⟨fun hpub => uploadPublic_mem _ _ s hs hty hpub, ?_⟩
      obtain ⟨r, hr, hpath, hpub2⟩ :=
        persistLoop_rows _ _ _ _ _ _ _ hl s hs
      refine ⟨r, List.mem_append_right _ hr, hpath, ?_⟩
      rw [hpub2]
      simp [hty]
    · intro s hs hty
      refine ⟨fun hpriv => uploadPrivate_mem _ _ s hs hty hpriv, ?_⟩
      obtain ⟨r, hr, hpath, hpub2⟩ :=
        persistLoop_rows _ _ _ _ _ _ _ hl s hs
      refine ⟨r, List.mem_append_right _ hr, hpath, ?_⟩
      rw [hpub2]
      simp [hty]
    · intro f hf
      exact uploadPublic_count st.public_storage archive_streams f hf
    · intro f hf
      exact uploadPrivate_count st.private_storage archive_streams f hf

/-- C6: a persist call whose input contains a stream whose filename is
already a committed `ChatArchive` path fails with
`ArchivePersisterException`; and persist is atomic: on any
unsuccessful call the database is exactly as before (no row of the
failed call is committed), while a successful call commits a
`ChatArchive` row for every input stream together. -/
theorem c6_persist_duplicate_atomic (st : PersistState)
    (chat_session_id : Nat) (archive_streams : List ArchiveStream)
    (hdup : ∃ s ∈ archive_streams, ∃ r ∈ st.db.chat_archives,
      r.path = s.filename) :
    (∃ msg, (DefaultPersister.persist st chat_session_id
        archive_streams).1 =
      Except.error (PersistError.archivePersisterException msg)) ∧
    (∀ st0 : PersistState, ∀ sid0 : Nat,
      ∀ streams0 : List ArchiveStream,
      ((DefaultPersister.persist st0 sid0 streams0).1.isOk = false →
        (DefaultPersister.persist st0 sid0 streams0).2.db = st0.db) ∧
      (∀ st3, DefaultPersister.persist st0 sid0 streams0 =
          (Except.ok (), st3) →
        ∀ s ∈ streams0, ∃ r ∈ st3.db.chat_archives,
          r.path = s.filename)) := by
  constructor
  · rcases hl : DefaultPersister.persistLoop st.db chat_session_id
        archive_streams [] [] with msg | ⟨pa, pu⟩
    · exact ⟨msg, (persist_error_state st chat_session_id archive_streams
        msg hl).1⟩
    · obtain ⟨s, hs, r, hr, hpath⟩ := hdup
      exact absurd hpath
        (persistLoop_no_committed_dup _ _ _ _ _ _ _ hl s hs r hr)
  · intro st0 sid0 streams0
    constructor
    · exact persist_rollback st0 sid0 streams0
    · intro st3 hok3 s hs
      rcases hl : DefaultPersister.persistLoop st0.db sid0
          streams0 [] [] with msg | ⟨pa, pu⟩
      · have h1 := (persist_error_state st0 sid0 streams0 msg hl).1
        rw [hok3] at h1
        simp at h1
      · have hval := persist_ok_state st0 sid0 streams0 pa pu hl
        rw [hok3] at hval
        have hst3 := (Prod.mk.injEq _ _ _ _).mp hval |>.2
        subst hst3
        obtain ⟨r, hr, hpath, _⟩ := persistLoop_rows _ _ _ _ _ _ _ hl s hs
        exact ⟨r, List.mem_append_right _ hr, hpath⟩

/-- A concrete stitched-audio stream used in persist witnesses. -/
def wStitchedStream : ArchiveStream :=
  { filename := "archive/2A.mp3",
    type := ArchiveStreamType.STITCHED_AUDIO_STREAM,
    length := none, users := [11, 12], offset := 2380 }

/-- A concrete per-user video stream used in persist witnesses. -/
def wVideoStream : ArchiveStream :=
  { filename := "archive/2A-1.flv",
    type := ArchiveStreamType.USER_VIDEO_STREAM,
    length := none, users := [12], offset := 2380 }

/-- A concrete persister state with empty containers, the two lookup
tables populated, and no committed archive rows. -/
def wPersistState : PersistState :=
  { public_storage := some [],
    private_storage := some [],
    db := { chat_archive_types :=
              [(ArchiveStreamType.STITCHED_AUDIO_STREAM, 1),
               (ArchiveStreamType.USER_VIDEO_STREAM, 2)],
            mime_types := [(".mp3", 10), (".flv", 11)],
            chat_archives := [],
            chat_archive_users := [] } }

/-- Witness for C5 at a concrete input: persisting a stitched stream
and a video stream succeeds, stores the stitched stream in the public
container with a public row and the video stream in the private
container with a non-public row. -/
theorem c5_persist_public_private_witness :
    poolHasObject (DefaultPersister.persist wPersistState 42
        [wStitchedStream, wVideoStream]).2.public_storage
      wStitchedStream.filename ∧
    (∃ r ∈ (DefaultPersister.persist wPersistState 42
        [wStitchedStream, wVideoStream]).2.db.chat_archives,
      r.path = wStitchedStream.filename ∧ r.public = true) ∧
    poolHasObject (DefaultPersister.persist wPersistState 42
        [wStitchedStream, wVideoStream]).2.private_storage
      wVideoStream.filename ∧
    (∃ r ∈ (DefaultPersister.persist wPersistState 42
        [wStitchedStream, wVideoStream]).2.db.chat_archives,
      r.path = wVideoStream.filename ∧ r.public = false) := by
  have h := c5_persist_public_private wPersistState 42
    [wStitchedStream, wVideoStream]
    (DefaultPersister.persist wPersistState 42
      [wStitchedStream, wVideoStream]).2
    (by rfl)
  have h1 := h.1 wStitchedStream (List.mem_cons_self _ _) rfl
  have h2 := h.2.1 wVideoStream
    (List.mem_cons_of_mem _ (List.mem_cons_self _ _)) (by decide)
  exact ⟨h1.1 rfl, h1.2, h2.1 rfl, h2.2⟩

/-- A concrete persister state that already holds a committed
`ChatArchive` row at the stitched stream's path. -/
def wDupPersistState : PersistState :=
  { public_storage := some ["archive/2A.mp3"],
    private_storage := some [],
    db := { chat_archive_types :=
              [(ArchiveStreamType.STITCHED_AUDIO_STREAM, 1),
               (ArchiveStreamType.USER_VIDEO_STREAM, 2)],
            mime_types := [(".mp3", 10), (".flv", 11)],
            chat_archives :=
              [{ chat_session_id := 41, type_id := 1,
                 path := "archive/2A.mp3", mime_type_id := 10,
                 public := true, length := none, offset := 0 }],
            chat_archive_users := [] } }

/-- Witness for C6 at a concrete input: persisting a stream whose
filename is already a committed path fails with
`ArchivePersisterException` and leaves the database unchanged. -/
theorem c6_persist_duplicate_atomic_witness :
    (∃ msg, (DefaultPersister.persist wDupPersistState 42
        [wStitchedStream]).1 =
      Except.error (PersistError.archivePersisterException msg)) ∧
    (DefaultPersister.persist wDupPersistState 42
        [wStitchedStream]).2.db = wDupPersistState.db := by
  have h := c6_persist_duplicate_atomic wDupPersistState 42 [wStitchedStream]
    ⟨wStitchedStream, List.mem_cons_self _ _,
     { chat_session_id := 41, type_id := 1,
       path := "archive/2A.mp3", mime_type_id := 10,
       public := true, length := none, offset := 0 },
     List.mem_cons_self _ _, rfl⟩
  refine ⟨h.1, ?_⟩
  obtain ⟨msg, hmsg⟩ := h.1
  exact (h.2 wDupPersistState 42 [wStitchedStream]).1
    (by rw [hmsg]; rfl)

/-! Stream ordering of `TokboxFetcher.fetch` (fetch.py lines 311-326).
The fetch loop builds one `ArchiveStream` per manifest video (in the
enumeration order of the parsed manifest dict) and then runs
`archive_streams.sort(key=lambda stream: stream.offset)`.  Python's
`list.sort` is a stable ascending sort by the key; we embed it as a
stable insertion sort, which computes the same list. -/

/-- Stable insertion of an element into an already sorted list: the new
element goes after every existing element whose key is less than or
equal (so existing equal-key elements keep their places before it). -/
def insortBy {α : Type} (le : α → α → Bool) (a : α) :
    List α → List α
  | [] => [a]
  | b :: t => if le b a then b :: insortBy le a t else a :: b :: t

/-- Stable ascending sort: fold of `insortBy` (extensionally equal to
Python's stable `list.sort`). -/
def stableSortBy {α : Type} (le : α → α → Bool) (l : List α) : List α :=
  l.foldl (fun acc a => insortBy le a acc) []

/-- Comparison used at fetch.py line 322:
`key=lambda stream: stream.offset` sorts ascending by offset only. -/
def offsetKeyLe (a b : ArchiveStream) : Bool :=
  decide (a.offset ≤ b.offset)

/-- Sorting step of `TokboxFetcher.fetch` (fetch.py line 322):
`archive_streams.sort(key=lambda stream: stream.offset)` applied to the
streams built from the provider manifest, before the manifest is
returned. -/
def TokboxFetcher.sortArchiveStreams
    (archive_streams : List ArchiveStream) : List ArchiveStream :=
  stableSortBy offsetKeyLe archive_streams

/-- Insertion produces a permutation of consing the element. -/
theorem insortBy_perm {α : Type} (le : α → α → Bool) (a : α)
    (l : List α) : (insortBy le a l).Perm (a :: l) := by
  induction l with
  | nil => exact List.Perm.refl _
  | cons b t ih =>
    unfold insortBy
    split
    · exact (ih.cons b).trans (List.Perm.swap a b t)
    · exact List.Perm.refl _

/-- Members of an insertion are the inserted element or old members. -/
theorem mem_insortBy {α : Type} (le : α → α → Bool) (a : α)
    (l : List α) (x : α) (hx : x ∈ insortBy le a l) : x = a ∨ x ∈ l := by
  have := (insortBy_perm le a l).mem_iff.mp hx
  simpa using this

/-- Insertion into a sorted list keeps it sorted, for a transitive and
total boolean order. -/
theorem insortBy_sorted {α : Type} (le : α → α → Bool)
    (htrans : ∀ x y z, le x y = true → le y z = true → le x z = true)
    (htotal : ∀ x y, le x y = true ∨ le y x = true)
    (a : α) (l : List α)
    (hl : List.Pairwise (fun x y => le x y = true) l) :
    List.Pairwise (fun x y => le x y = true) (insortBy le a l) := by
  induction l with
  | nil => simp [insortBy]
  | cons b t ih =>
    rcases List.pairwise_cons.mp hl with ⟨hb, ht⟩
    unfold insortBy
    split
    · rename_i hba
      refine List.pairwise_cons.mpr ⟨?_, ih ht⟩
      intro x hx
      rcases mem_insortBy le a t x hx with rfl | hxt
      · exact hba
      · exact hb x hxt
    · rename_i hba
      have hab : le a b = true := by
        rcases htotal a b with h | h
        · exact h
        · exact absurd h hba
      refine List.pairwise_cons.mpr ⟨?_, hl⟩
      intro x hx
      rcases List.mem_cons.mp hx with rfl | hxt
      · exact hab
      · exact htrans a b x hab (hb x hxt)

/-- The sort fold permutes the accumulator plus the input. -/
theorem stableSortBy_foldl_perm {α : Type} (le : α → α → Bool)
    (l acc : List α) :
    (l.foldl (fun acc2 a => insortBy le a acc2) acc).Perm (acc ++ l) := by
  induction l generalizing acc with
  | nil => simp
  | cons a t ih =>
    simp only [List.foldl_cons]
    exact (ih _).trans
      (((insortBy_perm le a acc).append_right t).trans
        List.perm_middle.symm)

/-- The sort fold keeps the accumulator sorted. -/
theorem stableSortBy_foldl_sorted {α : Type} (le : α → α → Bool)
    (htrans : ∀ x y z, le x y = true → le y z = true → le x z = true)
    (htotal : ∀ x y, le x y = true ∨ le y x = true)
    (l acc : List α)
    (hacc : List.Pairwise (fun x y => le x y = true) acc) :
    List.Pairwise (fun x y => le x y = true)
      (l.foldl (fun acc2 a => insortBy le a acc2) acc) := by
  induction l generalizing acc with
  | nil => exact hacc
  | cons a t ih =>
    simp only [List.foldl_cons]
    exact ih _ (insortBy_sorted le htrans htotal a acc hacc)

/-- Ordering the claim asserts for returned manifests, written from the
spec's words: offsets ascending with ties between equal offsets broken
by lexicographic order of the filenames.  (Spec-side definition, to be
compared with the code's `TokboxFetcher.sortArchiveStreams`.) -/
def lexCharListLe : List Char → List Char → Bool
  | [], _ => true
  | _ :: _, [] => false
  | a :: as, b :: bs =>
    if a = b then lexCharListLe as bs
    else decide (a < b)

/-- Predicate of the claimed manifest order (spec-side definition). -/
def specTieBreakOrdered (streams : List ArchiveStream) : Prop :=
  List.Pairwise
    (fun a b => a.offset < b.offset ∨
      (a.offset = b.offset ∧
        lexCharListLe a.filename.toList b.filename.toList = true))
    streams

/-- First concrete fetched stream of the C9 counterexample: offset 5,
filename later in lexicographic order. -/
def c9StreamB : ArchiveStream :=
  { filename := "archive/2A-b.flv",
    type := ArchiveStreamType.USER_VIDEO_STREAM,
    length := none, users := [1], offset := 5 }

/-- Second concrete fetched stream of the C9 counterexample: same
offset 5, filename earlier in lexicographic order. -/
def c9StreamA : ArchiveStream :=
  { filename := "archive/2A-a.flv",
    type := ArchiveStreamType.USER_VIDEO_STREAM,
    length := none, users := [2], offset := 5 }

/-- C9 counterexample: the fetcher's sort is stable by offset only, so
two streams with equal offsets keep their manifest enumeration order —
here the lexicographically larger filename stays first — and the
claimed filename tie-break does not hold for the returned order. -/
theorem c9_no_filename_tie_break :
    TokboxFetcher.sortArchiveStreams [c9StreamB, c9StreamA] =
      [c9StreamB, c9StreamA] ∧
    ¬ specTieBreakOrdered
      (TokboxFetcher.sortArchiveStreams [c9StreamB, c9StreamA]) := by
  constructor
  · rfl
  · intro h
    have h2 : (c9StreamB.offset < c9StreamA.offset ∨
        (c9StreamB.offset = c9StreamA.offset ∧
          lexCharListLe c9StreamB.filename.toList
            c9StreamA.filename.toList = true)) := by
      have hp : specTieBreakOrdered [c9StreamB, c9StreamA] := h
      exact (List.pairwise_cons.mp hp).1 c9StreamA (List.mem_cons_self _ _)
    rcases h2 with hlt | ⟨_, hlex⟩
    · exact absurd hlt (by decide)
    · exact absurd hlex (by decide)

/-- C9 amended: every manifest returned by the fetcher has its streams
ordered by offset ascending — a stable sort of the fetched list, so
ties between equal offsets keep the order in which the streams were
built from the provider manifest, with no filename tie-break.  The
sorted output is a permutation of the fetched streams. -/
theorem c9_sorted_by_offset (archive_streams : List ArchiveStream) :
    List.Pairwise (fun a b => a.offset ≤ b.offset)
        (TokboxFetcher.sortArchiveStreams archive_streams) ∧
      (TokboxFetcher.sortArchiveStreams archive_streams).Perm
        archive_streams := by
  constructor
  · have h := stableSortBy_foldl_sorted offsetKeyLe
      (fun x y z hxy hyz => by
        simp only [offsetKeyLe, decide_eq_true_eq] at *
        omega)
      (fun x y => by
        simp only [offsetKeyLe, decide_eq_true_eq]
        omega)
      archive_streams [] List.Pairwise.nil
    refine List.Pairwise.imp ?_ h
    intro a b hab
    simpa [offsetKeyLe] using hab
  · simpa using stableSortBy_foldl_perm offsetKeyLe archive_streams []

/-! Waveform generator of `src/archivesvc/waveform.py`
(`FFMpegWaveformGenerator`).  The sound file decoding is abstracted:
`frames` is the PCM frame array read by `Sndfile.read_frames` and
`channels` the file's channel count. -/

/-- Operation `np.abs(f).max()` over one bucket (waveform.py line 178):
`none` models the exception numpy raises for a max reduction over an
empty slice. -/
def maxAbsAmplitude : List ℚ → Option ℚ
  | [] => none
  | v :: t => some (t.foldl (fun m x => max m |x|) |v|)

/-- Slice `frames[x*frames_per_pixel : (x+1)*frames_per_pixel]`
(waveform.py line 177); Python slices clamp at the array end. -/
def frameSlice (frames : List ℚ) (frames_per_pixel x : Nat) : List ℚ :=
  (frames.drop (x * frames_per_pixel)).take
    ((x + 1) * frames_per_pixel - x * frames_per_pixel)

/-- Bucket loop of `_extract_waveform_data` (waveform.py lines
175-179): appends the max amplitude of each bucket, aborting with the
numpy exception on an empty bucket. -/
def waveformLoop (frames : List ℚ) (frames_per_pixel : Nat) :
    List Nat → Option (List ℚ)
  | [] => some []
  | x :: xs =>
    match maxAbsAmplitude (frameSlice frames frames_per_pixel x) with
    | none => none
    | some value =>
      match waveformLoop frames frames_per_pixel xs with
      | none => none
      | some rest => some (value :: rest)

/-- Method `FFMpegWaveformGenerator._extract_waveform_data`
(waveform.py lines 147-183): `frames_per_pixel = len(frames)/size` is
Python 2 floor division; the loop runs `for x in range(0, size)`. -/
def FFMpegWaveformGenerator.extractWaveformData (frames : List ℚ)
    (size : Nat := 1800) : Option (List ℚ) :=
  let frames_per_pixel := frames.length / size
  waveformLoop frames frames_per_pixel (List.range size)

/-- Stereo downmix `frames[::2]` (waveform.py line 171): every other
frame. -/
def everyOther : List ℚ → List ℚ
  | [] => []
  | [v] => [v]
  | v :: _ :: t => v :: everyOther t

/-- Exception `ArchiveWaveformGeneratorException` of waveform.py. -/
inductive WaveformError where
  | archiveWaveformGeneratorException
deriving Repr, DecidableEq

/-- Method `FFMpegWaveformGenerator.generate` (waveform.py lines
249-313): decode the extracted `.wav` stream, downmix stereo by
decimation, extract the waveform vector, and attach it together with
the rendered image's filename to the stream; any exception inside —
in particular the empty-bucket max reduction — is re-raised as
`ArchiveWaveformGeneratorException`. -/
def FFMpegWaveformGenerator.generate (frames : List ℚ) (channels : Nat)
    (archive_stream : ArchiveStream) (output_filename : String) :
    Except WaveformError ArchiveStream :=
  let fs := if channels == 2 then everyOther frames else frames
  match FFMpegWaveformGenerator.extractWaveformData fs with
  | none => Except.error WaveformError.archiveWaveformGeneratorException
  | some waveform_data =>
      Except.ok { archive_stream with
        waveform := some waveform_data,
        waveform_filename := some (output_filename ++ ".png") }

/-- With zero frames per pixel every bucket slice is empty, so the
first loop step already fails. -/
theorem waveformLoop_zero_fpp (frames : List ℚ) (x : Nat)
    (xs : List Nat) : waveformLoop frames 0 (x :: xs) = none := by
  unfold waveformLoop
  have h : frameSlice frames 0 x = [] := by
    simp [frameSlice]
  rw [h]
  rfl

/-- Fewer than 1800 frames make the integer division
`len(frames)/1800` zero, and extraction fails. -/
theorem extractWaveformData_none_of_small (frames : List ℚ)
    (h : frames.length < 1800) :
    FFMpegWaveformGenerator.extractWaveformData frames = none := by
  unfold FFMpegWaveformGenerator.extractWaveformData
  have hfpp : frames.length / 1800 = 0 := Nat.div_eq_of_lt h
  rw [hfpp]
  cases hr : List.range 1800 with
  | nil => exact absurd (List.range_eq_nil.mp hr) (by decide)
  | cons x xs => exact waveformLoop_zero_fpp frames x xs

/-- A successful bucket loop returns one amplitude per bucket. -/
theorem waveformLoop_length (frames : List ℚ) (frames_per_pixel : Nat)
    (xs : List Nat) (v : List ℚ)
    (h : waveformLoop frames frames_per_pixel xs = some v) :
    v.length = xs.length := by
  induction xs generalizing v with
  | nil =>
    unfold waveformLoop at h
    cases h
    rfl
  | cons x t ih =>
    unfold waveformLoop at h
    split at h
    · cases h
    · split at h
      · cases h
      · cases h
        rename_i rest hrest
        simp [ih rest hrest]

/-- The max reduction succeeds on every nonempty bucket. -/
theorem maxAbsAmplitude_isSome (l : List ℚ) (h : l ≠ []) :
    (maxAbsAmplitude l).isSome = true := by
  cases l with
  | nil => exact absurd rfl h
  | cons v t => rfl

/-- The bucket loop succeeds when every bucket is nonempty. -/
theorem waveformLoop_some (frames : List ℚ) (frames_per_pixel : Nat)
    (xs : List Nat)
    (h : ∀ x ∈ xs, frameSlice frames frames_per_pixel x ≠ []) :
    ∃ v, waveformLoop frames frames_per_pixel xs = some v := by
  induction xs with
  | nil => exact ⟨[], rfl⟩
  | cons x t ih =>
    have hx := h x (List.mem_cons_self _ _)
    obtain ⟨v1, hv1⟩ := Option.isSome_iff_exists.mp
      (maxAbsAmplitude_isSome _ hx)
    obtain ⟨v, hv⟩ := ih (fun y hy => h y (List.mem_cons_of_mem _ hy))
    refine ⟨v1 :: v, ?_⟩
    unfold waveformLoop
    rw [hv1, hv]

/-- With at least 1800 frames every bucket of the partition is
nonempty. -/
theorem frameSlice_ne_nil (frames : List ℚ) (x : Nat) (hx : x < 1800)
    (hlen : 1800 ≤ frames.length) :
    frameSlice frames (frames.length / 1800) x ≠ [] := by
  set fpp := frames.length / 1800 with hfpp
  have hfpp1 : 1 ≤ fpp := by
    rw [hfpp]
    exact (Nat.one_le_div_iff (by omega)).mpr hlen
  have hmul : 1800 * fpp ≤ frames.length := by
    rw [hfpp, Nat.mul_comm]
    exact Nat.div_mul_le_self _ _
  have hx1 : (x + 1) * fpp ≤ 1800 * fpp :=
    Nat.mul_le_mul_right fpp (by omega)
  have hexp : (x + 1) * fpp = x * fpp + fpp := by ring
  have hxlt : x * fpp < frames.length := by omega
  have hslice : (x + 1) * fpp - x * fpp = fpp := by omega
  intro hnil
  unfold frameSlice at hnil
  rw [hslice] at hnil
  have h0 := congrArg List.length hnil
  simp only [List.length_take, List.length_drop, List.length_nil] at h0
  omega

/-- C10: with the bucket count fixed at 1800, waveform generation on an
input with fewer than 1800 frames fails with
`ArchiveWaveformGeneratorException` instead of producing a shorter or
padded vector — the integer division `len(frames)/1800` yields
zero-width buckets and the empty max reduction raises; a successful
generation implies the audio had at least 1800 frames and attaches a
vector of length exactly 1800; and for mono audio with at least 1800
frames the generation does succeed. -/
theorem c10_waveform_generation_threshold (frames : List ℚ)
    (channels : Nat) (archive_stream : ArchiveStream)
    (output_filename : String) :
    (frames.length < 1800 →
      FFMpegWaveformGenerator.generate frames channels archive_stream
        output_filename =
      Except.error WaveformError.archiveWaveformGeneratorException) ∧
    (∀ s2, FFMpegWaveformGenerator.generate frames channels
        archive_stream output_filename = Except.ok s2 →
      1800 ≤ frames.length ∧
        ∃ v, s2.waveform = some v ∧ v.length = 1800) ∧
    (channels ≠ 2 → 1800 ≤ frames.length →
      ∃ s2, FFMpegWaveformGenerator.generate frames channels
        archive_stream output_filename = Except.ok s2) := by
  have heo : ∀ l : List ℚ, (everyOther l).length ≤ l.length := by
    intro l
    induction l using everyOther.induct with
    | case1 => simp [everyOther]
    | case2 v => simp [everyOther]
    | case3 v w t ih =>
      simp only [everyOther, List.length_cons]
      omega
  refine ⟨?_, ?_, ?_⟩
  · intro hsmall
    simp only [FFMpegWaveformGenerator.generate]
    have hfs : (if channels == 2 then everyOther frames
        else frames).length < 1800 := by
      split
      · exact Nat.lt_of_le_of_lt (heo frames) hsmall
      · exact hsmall
    rw [extractWaveformData_none_of_small _ hfs]
  · intro s2 hok
    simp only [FFMpegWaveformGenerator.generate] at hok
    split at hok
    · cases hok
    · rename_i waveform_data hsome
      have hfsbig : ¬ (if channels == 2 then everyOther frames
          else frames).length < 1800 := by
        intro hsmall
        rw [extractWaveformData_none_of_small _ hsmall] at hsome
        cases hsome
      have hlen : 1800 ≤ frames.length := by
        cases hb : (channels == 2) with
        | true =>
          simp only [hb, if_true] at hfsbig
          have := heo frames
          omega
        | false =>
          simp only [hb, Bool.false_eq_true, if_false] at hfsbig
          omega
      refine ⟨hlen, waveform_data, ?_, ?_⟩
      · cases hok
        rfl
      · simp only [FFMpegWaveformGenerator.extractWaveformData] at hsome
        have := waveformLoop_length _ _ _ _ hsome
        simpa using this
  · intro hch hlen
    have hc : (channels == 2) = false := by
      simpa using hch
    simp only [FFMpegWaveformGenerator.generate, hc, Bool.false_eq_true,
      if_false]
    obtain ⟨v, hv⟩ := waveformLoop_some frames (frames.length / 1800)
      (List.range 1800)
      (fun x hx => frameSlice_ne_nil frames x (List.mem_range.mp hx) hlen)
    simp only [FFMpegWaveformGenerator.extractWaveformData]
    rw [hv]
    exact ⟨_, rfl⟩

/-- Witness for C10 at concrete inputs: a one-frame mono input fails
with the waveform exception, and a constant 1800-frame mono input
succeeds. -/
theorem c10_waveform_generation_threshold_witness :
    FFMpegWaveformGenerator.generate [1] 1
        { filename := "archive/2A.mp3",
          type := ArchiveStreamType.STITCHED_AUDIO_STREAM,
          length := none } "archive/2A" =
      Except.error WaveformError.archiveWaveformGeneratorException ∧
    ∃ s2, FFMpegWaveformGenerator.generate (List.replicate 1800 1) 1
        { filename := "archive/2A.mp3",
          type := ArchiveStreamType.STITCHED_AUDIO_STREAM,
          length := none } "archive/2A" = Except.ok s2 := by
  constructor
  · exact (c10_waveform_generation_threshold [1] 1 _ _).1 (by decide)
  · refine (c10_waveform_generation_threshold (List.replicate 1800 1) 1
      _ _).2.2 (by decide) ?_
    rw [List.length_replicate]

/-! Stitcher of `src/archivesvc/stitch.py` (`FFMpegSoxStitcher`).
The external sox/ffmpeg invocations are abstracted by a stats oracle
`stats : String → SoxStats` giving, per file path, the three stats the
stitcher reads from `sox <file> -n stat`; the file contents themselves
are not modelled, only the `ArchiveStream` records the methods
construct and the volume adjustments they request. -/

/-- Stats read from the output of `sox <file> -n stat`
(`_get_audio_stream_stats`, stitch.py lines 141-190): the entries the
stitcher uses. -/
structure SoxStats where
  rms : ℚ
  volAdj : ℚ
  lengthSeconds : ℚ
deriving Repr, DecidableEq

/-- Method `FFMpegSoxStitcher._get_audio_stream_length` (stitch.py
lines 192-205): the stats entry `Length (seconds)` times `1000.0` — a
float multiplication, with no integer conversion. -/
def FFMpegSoxStitcher.getAudioStreamLength (stats : String → SoxStats)
    (filename : String) : ℚ :=
  (stats filename).lengthSeconds * 1000

/-- Method `FFMpegSoxStitcher._extract_audio_stream` (stitch.py lines
92-139): extracts audio to `output_filename` and returns a stream with
that filename, type USER_AUDIO_STREAM and the input's length, users
and offset. -/
def FFMpegSoxStitcher.extractAudioStream (archive_stream : ArchiveStream)
    (output_filename : String) : ArchiveStream :=
  { filename := output_filename,
    type := ArchiveStreamType.USER_AUDIO_STREAM,
    length := archive_stream.length,
    users := archive_stream.users,
    offset := archive_stream.offset }

/-- Python `enumerate`, starting at a given index. -/
def pyEnumFrom {α : Type} : Nat → List α → List (Nat × α)
  | _, [] => []
  | n, a :: t => (n, a) :: pyEnumFrom (n + 1) t

/-- Python `enumerate(l)`. -/
def pyEnum {α : Type} (l : List α) : List (Nat × α) :=
  pyEnumFrom 0 l

/-- Audio extraction loop of `FFMpegSoxStitcher.stitch` (stitch.py
lines 528-535): stream `i` is extracted to
`"%s-%s.mp3" % (output_filename, index+1)`. -/
def FFMpegSoxStitcher.extractAudioStreams
    (archive_streams : List ArchiveStream) (output_filename : String) :
    List ArchiveStream :=
  (pyEnum archive_streams).map (fun p =>
    FFMpegSoxStitcher.extractAudioStream p.2
      (output_filename ++ "-" ++ toString (p.1 + 1) ++ ".mp3"))

/-- One recorded invocation of
`FFMpegSoxStitcher._adjust_audio_stream_volume`: which file was
adjusted, where the result was written, and the `vol` factor passed to
sox. -/
structure AdjustAction where
  source : String
  output : String
  factor : ℚ
deriving Repr, DecidableEq

/-- Method `FFMpegSoxStitcher._adjust_audio_stream_volume` (stitch.py
lines 207-252): runs `sox <in> <out> vol <factor>` and returns a
stream with the output filename and the input's type, length, users
and offset.  We also return the recorded action. -/
def FFMpegSoxStitcher.adjustAudioStreamVolume
    (archive_stream : ArchiveStream) (volume_factor : ℚ)
    (output_filename : String) : ArchiveStream × AdjustAction :=
  ({ filename := output_filename,
     type := archive_stream.type,
     length := archive_stream.length,
     users := archive_stream.users,
     offset := archive_stream.offset },
   { source := archive_stream.filename,
     output := output_filename,
     factor := volume_factor })

/-- Helper `build_output_filename` of `_normalize_audio_streams`
(stitch.py lines 288-291): insert `-norm` immediately before the
filename's extension. -/
def buildNormOutputFilename (stream : ArchiveStream) : String :=
  let pe := splitext stream.filename
  pe.1 ++ "-norm" ++ pe.2

/-- Pivot search loop of `_normalize_audio_streams` (stitch.py lines
294-304): running over the enumerated streams, keep the index and
stream of strictly lowest `RMS amplitude` seen so far (the first
enumerated stream starts as the current lowest). -/
def lowestVolumeLoop (stats : String → SoxStats) :
    List (Nat × ArchiveStream) → Nat × ArchiveStream → Nat × ArchiveStream
  | [], best => best
  | (i, s) :: rest, best =>
      if (stats s.filename).rms < (stats best.2.filename).rms then
        lowestVolumeLoop stats rest (i, s)
      else
        lowestVolumeLoop stats rest best

/-- Method `FFMpegSoxStitcher._normalize_audio_streams` (stitch.py
lines 254-345): find the stream with the lowest RMS amplitude, raise
its volume by 70% of its clip-safe `Volume adjustment`, re-measure the
adjusted file's RMS amplitude as the target volume, and adjust every
other stream (the enumeration loop skips the pivot's index, which is
`List.eraseIdx` at that index) by `target / rms(stream)`; each result
is written under the `-norm` filename.  Returns the adjusted streams
(pivot first, as in the source) and the recorded sox invocations.
An empty input would make the source fail (`archive_streams[None]`);
`stitch` never passes one. -/
def FFMpegSoxStitcher.normalizeAudioStreams (stats : String → SoxStats)
    (archive_streams : List ArchiveStream) :
    List ArchiveStream × List AdjustAction :=
  match pyEnum archive_streams with
  | [] => ([], [])
  | first :: restEnum =>
      let lowest := lowestVolumeLoop stats restEnum first
      let lowest_volume_stream := lowest.2
      let pivotPair := FFMpegSoxStitcher.adjustAudioStreamVolume
        lowest_volume_stream
        ((stats lowest_volume_stream.filename).volAdj * (7 / 10))
        (buildNormOutputFilename lowest_volume_stream)
      let target_volume := (stats pivotPair.1.filename).rms
      let otherPairs := (archive_streams.eraseIdx lowest.1).map (fun s =>
        FFMpegSoxStitcher.adjustAudioStreamVolume s
          (target_volume / (stats s.filename).rms)
          (buildNormOutputFilename s))
      (pivotPair.1 :: otherPairs.map Prod.fst,
       pivotPair.2 :: otherPairs.map Prod.snd)

/-- Python `min` over a nonempty list of ints (`min([..])`); the empty
case is unreachable in the stitcher and mapped to 0. -/
def pythonMinInt : List Int → Int
  | [] => 0
  | v :: t => t.foldl min v

/-- Method `FFMpegSoxStitcher._stitch_audio_streams` (stitch.py lines
348-412): mixes the given streams into `output_filename`; the result
stream carries type STITCHED_AUDIO_STREAM, the concatenation of the
input streams' users, the minimum of the input streams' offsets, and
the length measured from the output file by
`_get_audio_stream_length`. -/
def FFMpegSoxStitcher.stitchAudioStreams (stats : String → SoxStats)
    (archive_streams : List ArchiveStream) (output_filename : String) :
    ArchiveStream :=
  let users := archive_streams.foldl (fun acc s => acc ++ s.users) []
  let result : ArchiveStream :=
    { filename := output_filename,
      type := ArchiveStreamType.STITCHED_AUDIO_STREAM,
      length := none,
      users := users,
      offset := pythonMinInt (archive_streams.map (fun s => s.offset)) }
  { result with
    length := some (FFMpegSoxStitcher.getAudioStreamLength stats
      output_filename) }

/-- Method `FFMpegSoxStitcher._to_mp4_stream` (stitch.py lines
414-455): remux to `output_filename`, preserving type, length, users
and offset. -/
def FFMpegSoxStitcher.toMp4Stream (archive_stream : ArchiveStream)
    (output_filename : String) : ArchiveStream :=
  { filename := output_filename,
    type := archive_stream.type,
    length := archive_stream.length,
    users := archive_stream.users,
    offset := archive_stream.offset }

/-- Exception `ArchiveStitcherException` of stitch.py. -/
inductive StitchError where
  | archiveStitcherException
deriving Repr, DecidableEq

/-- Method `FFMpegSoxStitcher.stitch` (stitch.py lines 490-563):
extract audio from each input stream, normalize the volumes, mix into
`{base}.mp3` and remux to `{base}.mp4`; returns
`[mp4_stream, stitched_stream]`.  On an empty input the source's
pre-stage loop never binds its `storage_pool` local, the following
`with` raises, and the blanket handler re-raises
`ArchiveStitcherException`. -/
def FFMpegSoxStitcher.stitch (stats : String → SoxStats)
    (archive_streams : List ArchiveStream) (output_filename : String) :
    Except StitchError (List ArchiveStream) :=
  match archive_streams with
  | [] => Except.error StitchError.archiveStitcherException
  | _ :: _ =>
      let audio_streams := FFMpegSoxStitcher.extractAudioStreams
        archive_streams output_filename
      let normalized := FFMpegSoxStitcher.normalizeAudioStreams stats
        audio_streams
      let stitched_stream := FFMpegSoxStitcher.stitchAudioStreams stats
        normalized.1 (output_filename ++ ".mp3")
      let mp4_stream := FFMpegSoxStitcher.toMp4Stream stitched_stream
        (output_filename ++ ".mp4")
      Except.ok [mp4_stream, stitched_stream]

/-- Enumeration pairs index their element in the underlying list. -/
theorem pyEnumFrom_getElem {α : Type} (l : List α) (n : Nat)
    (p : Nat × α) (hp : p ∈ pyEnumFrom n l) :
    n ≤ p.1 ∧ l[p.1 - n]? = some p.2 := by
  induction l generalizing n with
  | nil => cases hp
  | cons a t ih =>
    rcases List.mem_cons.mp hp with rfl | hp2
    · exact ⟨Nat.le_refl _, by simp⟩
    · obtain ⟨hle, hget⟩ := ih (n + 1) hp2
      refine ⟨by omega, ?_⟩
      have hidx : p.1 - n = (p.1 - (n + 1)) + 1 := by omega
      rw [hidx]
      simpa using hget

/-- Enumeration pairs of `pyEnum` index their element. -/
theorem pyEnum_getElem {α : Type} (l : List α) (p : Nat × α)
    (hp : p ∈ pyEnum l) : l[p.1]? = some p.2 := by
  have := pyEnumFrom_getElem l 0 p hp
  simpa using this.2

/-- Every list member appears in its enumeration. -/
theorem mem_pyEnumFrom_of_mem {α : Type} (l : List α) (n : Nat) (a : α)
    (ha : a ∈ l) : ∃ i, (i, a) ∈ pyEnumFrom n l := by
  induction l generalizing n with
  | nil => cases ha
  | cons b t ih =>
    rcases List.mem_cons.mp ha with rfl | ha2
    · exact ⟨n, List.mem_cons_self _ _⟩
    · obtain ⟨i, hi⟩ := ih (n + 1) ha2
      exact ⟨i, List.mem_cons_of_mem _ hi⟩

/-- Mapping a function of the element over an enumeration is mapping it
over the list. -/
theorem pyEnumFrom_map_snd {α β : Type} (l : List α) (n : Nat)
    (g : α → β) :
    (pyEnumFrom n l).map (fun p => g p.2) = l.map g := by
  induction l generalizing n with
  | nil => rfl
  | cons a t ih =>
    simp only [pyEnumFrom, List.map_cons]
    rw [ih (n + 1)]

/-- Removing the element at a valid index and putting it back in front
permutes the list. -/
theorem cons_eraseIdx_perm {α : Type} (l : List α) (i : Nat) (a : α)
    (h : l[i]? = some a) : (a :: l.eraseIdx i).Perm l := by
  induction l generalizing i with
  | nil => cases h
  | cons b t ih =>
    cases i with
    | zero =>
      have hb : b = a := by simpa using h
      subst hb
      exact List.Perm.refl _
    | succ j =>
      have hj : t[j]? = some a := by simpa using h
      simp only [List.eraseIdx_cons_succ]
      exact (List.Perm.swap b a _).trans ((ih j hj).cons b)

/-- The pivot search returns its seed or a scanned pair. -/
theorem lowestVolumeLoop_mem (stats : String → SoxStats)
    (rest : List (Nat × ArchiveStream)) (best : Nat × ArchiveStream) :
    lowestVolumeLoop stats rest best = best ∨
      lowestVolumeLoop stats rest best ∈ rest := by
  induction rest generalizing best with
  | nil => exact Or.inl rfl
  | cons p t ih =>
    obtain ⟨i, s⟩ := p
    unfold lowestVolumeLoop
    split
    · rcases ih (i, s) with h | h
      · refine Or.inr ?_
        rw [h]
        exact List.mem_cons_self _ _
      · exact Or.inr (List.mem_cons_of_mem _ h)
    · rcases ih best with h | h
      · exact Or.inl h
      · exact Or.inr (List.mem_cons_of_mem _ h)

/-- The pivot search result has the lowest RMS amplitude among the seed
and all scanned pairs. -/
theorem lowestVolumeLoop_min (stats : String → SoxStats)
    (rest : List (Nat × ArchiveStream)) (best : Nat × ArchiveStream) :
    (stats (lowestVolumeLoop stats rest best).2.filename).rms ≤
        (stats best.2.filename).rms ∧
      ∀ p ∈ rest,
        (stats (lowestVolumeLoop stats rest best).2.filename).rms ≤
          (stats p.2.filename).rms := by
  induction rest generalizing best with
  | nil => exact ⟨le_refl _, fun p hp => absurd hp (List.not_mem_nil p)⟩
  | cons q t ih =>
    obtain ⟨i, s⟩ := q
    unfold lowestVolumeLoop
    split
    · rename_i hlt
      obtain ⟨h1, h2⟩ := ih (i, s)
      refine ⟨h1.trans (le_of_lt hlt), ?_⟩
      intro p hp
      rcases List.mem_cons.mp hp with rfl | hp2
      · exact h1
      · exact h2 p hp2
    · rename_i hge
      obtain ⟨h1, h2⟩ := ih best
      refine ⟨h1, ?_⟩
      intro p hp
      rcases List.mem_cons.mp hp with rfl | hp2
      · exact h1.trans (le_of_not_lt hge)
      · exact h2 p hp2

/-- A fold of `min` is bounded by its seed. -/
theorem foldlMin_le_init (t : List Int) (v : Int) : t.foldl min v ≤ v := by
  induction t generalizing v with
  | nil => exact le_refl _
  | cons a t2 ih =>
    simp only [List.foldl_cons]
    exact (ih (min v a)).trans (min_le_left _ _)

/-- A fold of `min` is bounded by every folded element. -/
theorem foldlMin_le_mem (t : List Int) (v x : Int) (hx : x ∈ t) :
    t.foldl min v ≤ x := by
  induction t generalizing v with
  | nil => cases hx
  | cons a t2 ih =>
    simp only [List.foldl_cons]
    rcases List.mem_cons.mp hx with rfl | hx2
    · exact (foldlMin_le_init t2 (min v x)).trans (min_le_right _ _)
    · exact ih (min v a) hx2

/-- A fold of `min` is its seed or a folded element. -/
theorem foldlMin_mem (t : List Int) (v : Int) :
    t.foldl min v = v ∨ t.foldl min v ∈ t := by
  induction t generalizing v with
  | nil => exact Or.inl rfl
  | cons a t2 ih =>
    simp only [List.foldl_cons]
    rcases ih (min v a) with h | h
    · rcases le_total v a with hva | hav
      · rw [h, min_eq_left hva]
        exact Or.inl rfl
      · rw [h, min_eq_right hav]
        exact Or.inr (List.mem_cons_self _ _)
    · exact Or.inr (List.mem_cons_of_mem _ h)

/-- Python's `min` of a nonempty int list is a member. -/
theorem pythonMinInt_mem (l : List Int) (h : l ≠ []) :
    pythonMinInt l ∈ l := by
  cases l with
  | nil => exact absurd rfl h
  | cons v t =>
    show t.foldl min v ∈ v :: t
    rcases foldlMin_mem t v with h2 | h2
    · rw [h2]
      exact List.mem_cons_self _ _
    · exact List.mem_cons_of_mem _ h2

/-- Python's `min` is a lower bound of the list. -/
theorem pythonMinInt_le (l : List Int) (x : Int) (hx : x ∈ l) :
    pythonMinInt l ≤ x := by
  cases l with
  | nil => cases hx
  | cons v t =>
    unfold pythonMinInt
    rcases List.mem_cons.mp hx with rfl | hx2
    · exact foldlMin_le_init t x
    · exact foldlMin_le_mem t v x hx2

/-- Python's `min` is invariant under permutation of a nonempty
list. -/
theorem pythonMinInt_eq_of_perm (l1 l2 : List Int) (hp : l1.Perm l2)
    (h1 : l1 ≠ []) : pythonMinInt l1 = pythonMinInt l2 := by
  have h2 : l2 ≠ [] := by
    intro he
    subst he
    exact h1 (List.Perm.eq_nil hp)
  apply le_antisymm
  · exact pythonMinInt_le l1 _ (hp.mem_iff.mpr (pythonMinInt_mem l2 h2))
  · exact pythonMinInt_le l2 _ (hp.mem_iff.mp (pythonMinInt_mem l1 h1))

/-- Characterization of `_normalize_audio_streams` on a nonempty input:
there is a pivot — the stream at the first index of minimal RMS
amplitude — whose volume is adjusted by `Volume adjustment × 0.7` into
its `-norm` file; the re-measured RMS of that file is the target, and
every other stream (in order) is adjusted by `target / rms` into its
own `-norm` file. -/
theorem normalizeAudioStreams_eq (stats : String → SoxStats)
    (archive_streams : List ArchiveStream) (h : archive_streams ≠ []) :
    ∃ i0 pivot, archive_streams[i0]? = some pivot ∧
      (∀ s ∈ archive_streams,
        (stats pivot.filename).rms ≤ (stats s.filename).rms) ∧
      FFMpegSoxStitcher.normalizeAudioStreams stats archive_streams =
        (((archive_streams.eraseIdx i0).map (fun s =>
            FFMpegSoxStitcher.adjustAudioStreamVolume s
              ((stats (buildNormOutputFilename pivot)).rms /
                (stats s.filename).rms)
              (buildNormOutputFilename s))).map Prod.fst |>.cons
          (FFMpegSoxStitcher.adjustAudioStreamVolume pivot
            ((stats pivot.filename).volAdj * (7 / 10))
            (buildNormOutputFilename pivot)).1,
         ((archive_streams.eraseIdx i0).map (fun s =>
            FFMpegSoxStitcher.adjustAudioStreamVolume s
              ((stats (buildNormOutputFilename pivot)).rms /
                (stats s.filename).rms)
              (buildNormOutputFilename s))).map Prod.snd |>.cons
          (FFMpegSoxStitcher.adjustAudioStreamVolume pivot
            ((stats pivot.filename).volAdj * (7 / 10))
            (buildNormOutputFilename pivot)).2) := by
  cases archive_streams with
  | nil => exact absurd rfl h
  | cons a t =>
    refine ⟨(lowestVolumeLoop stats (pyEnumFrom 1 t) (0, a)).1,
            (lowestVolumeLoop stats (pyEnumFrom 1 t) (0, a)).2,
            ?_, ?_, ?_⟩
    · have hmem : lowestVolumeLoop stats (pyEnumFrom 1 t) (0, a) ∈
          pyEnum (a :: t) := by
        show _ ∈ (0, a) :: pyEnumFrom 1 t
        rcases lowestVolumeLoop_mem stats (pyEnumFrom 1 t) (0, a)
          with h2 | h2
        · rw [h2]
          exact List.mem_cons_self _ _
        · exact List.mem_cons_of_mem _ h2
      exact pyEnum_getElem _ _ hmem
    · intro s hs
      obtain ⟨i, hi⟩ := mem_pyEnumFrom_of_mem (a :: t) 0 s hs
      have hi2 : (i, s) ∈ (0, a) :: pyEnumFrom 1 t := hi
      obtain ⟨h1, h2⟩ := lowestVolumeLoop_min stats (pyEnumFrom 1 t) (0, a)
      rcases List.mem_cons.mp hi2 with he | hmem2
      · have hsa : s = a := congrArg Prod.snd he
        rw [hsa]
        exact h1
      · exact h2 (i, s) hmem2
    · rfl

/-- Projections unaffected by a volume adjustment commute with
normalization up to the pivot-first permutation. -/
theorem normalize_map_fst_perm {β : Type} (stats : String → SoxStats)
    (g : ArchiveStream → β)
    (hg : ∀ s f o,
      g (FFMpegSoxStitcher.adjustAudioStreamVolume s f o).1 = g s)
    (archive_streams : List ArchiveStream) (h : archive_streams ≠ []) :
    (((FFMpegSoxStitcher.normalizeAudioStreams stats
        archive_streams).1).map g).Perm (archive_streams.map g) := by
  obtain ⟨i0, pivot, hget, _, heq⟩ :=
    normalizeAudioStreams_eq stats archive_streams h
  rw [heq]
  simp only [List.map_cons, List.map_map]
  have hmapeq : (archive_streams.eraseIdx i0).map
      (g ∘ Prod.fst ∘ fun s => FFMpegSoxStitcher.adjustAudioStreamVolume s
        ((stats (buildNormOutputFilename pivot)).rms /
          (stats s.filename).rms)
        (buildNormOutputFilename s)) =
      (archive_streams.eraseIdx i0).map g := by
    apply List.map_congr_left
    intro s _
    exact hg s _ _
  rw [hmapeq, hg pivot _ _]
  exact (cons_eraseIdx_perm archive_streams i0 pivot hget).map g

/-- Membership in the users fold of `_stitch_audio_streams`. -/
theorem usersFoldl_mem (l : List ArchiveStream) (acc : List Nat)
    (u : Nat) :
    u ∈ l.foldl (fun acc2 s => acc2 ++ s.users) acc ↔
      u ∈ acc ∨ ∃ s ∈ l, u ∈ s.users := by
  induction l generalizing acc with
  | nil => simp
  | cons a t ih =>
    simp only [List.foldl_cons]
    rw [ih]
    constructor
    · rintro (h2 | h2)
      · rcases List.mem_append.mp h2 with h3 | h3
        · exact Or.inl h3
        · exact Or.inr ⟨a, List.mem_cons_self _ _, h3⟩
      · obtain ⟨s, hs, hu⟩ := h2
        exact Or.inr ⟨s, List.mem_cons_of_mem _ hs, hu⟩
    · rintro (h2 | ⟨s, hs, hu⟩)
      · exact Or.inl (List.mem_append.mpr (Or.inl h2))
      · rcases List.mem_cons.mp hs with rfl | hs2
        · exact Or.inl (List.mem_append.mpr (Or.inr hu))
        · exact Or.inr ⟨s, hs2, hu⟩

/-- Equal multisets of user lists give the same user membership. -/
theorem exists_users_iff_of_perm (l1 l2 : List ArchiveStream)
    (hp : (l1.map fun s => s.users).Perm (l2.map fun s => s.users))
    (u : Nat) :
    (∃ s ∈ l1, u ∈ s.users) ↔ ∃ s ∈ l2, u ∈ s.users := by
  constructor
  · rintro ⟨s, hs, hu⟩
    have h2 : s.users ∈ l2.map (fun s => s.users) :=
      hp.mem_iff.mp (List.mem_map_of_mem _ hs)
    obtain ⟨s2, hs2, he⟩ := List.mem_map.mp h2
    refine ⟨s2, hs2, ?_⟩
    rw [he]
    exact hu
  · rintro ⟨s, hs, hu⟩
    have h2 : s.users ∈ l1.map (fun s => s.users) :=
      hp.symm.mem_iff.mp (List.mem_map_of_mem _ hs)
    obtain ⟨s2, hs2, he⟩ := List.mem_map.mp h2
    refine ⟨s2, hs2, ?_⟩
    rw [he]
    exact hu

/-- Audio extraction keeps any projection of the fields it copies. -/
theorem extractAudioStreams_map_proj {β : Type} (g : ArchiveStream → β)
    (hg : ∀ s o, g (FFMpegSoxStitcher.extractAudioStream s o) = g s)
    (l : List ArchiveStream) (output_filename : String) :
    (FFMpegSoxStitcher.extractAudioStreams l output_filename).map g =
      l.map g := by
  unfold FFMpegSoxStitcher.extractAudioStreams
  rw [List.map_map]
  have h2 : ∀ p ∈ pyEnum l,
      (g ∘ fun p : Nat × ArchiveStream =>
        FFMpegSoxStitcher.extractAudioStream p.2
          (output_filename ++ "-" ++ toString (p.1 + 1) ++ ".mp3")) p =
      (fun p : Nat × ArchiveStream => g p.2) p := by
    intro p _
    exact hg p.2 _
  rw [List.map_congr_left h2]
  exact pyEnumFrom_map_snd l 0 g

/-- Audio extraction of a nonempty list is nonempty. -/
theorem extractAudioStreams_ne_nil (l : List ArchiveStream)
    (output_filename : String) (h : l ≠ []) :
    FFMpegSoxStitcher.extractAudioStreams l output_filename ≠ [] := by
  cases l with
  | nil => exact absurd rfl h
  | cons a t =>
    intro he
    simp [FFMpegSoxStitcher.extractAudioStreams, pyEnum, pyEnumFrom] at he

/-- C8: the normalization stage selects as pivot a stream of lowest RMS
amplitude, applies to it a gain of 0.70 times the stats tool's
volume-adjustment measure, re-measures the pivot's output RMS as the
target, applies to every other stream the gain `target / rms(s)`, and
writes each normalized stream under the original filename with `-norm`
inserted immediately before the extension. -/
theorem c8_normalize_gains (stats : String → SoxStats)
    (archive_streams : List ArchiveStream) (h : archive_streams ≠ []) :
    ∃ i0 pivot, archive_streams[i0]? = some pivot ∧
      (∀ s ∈ archive_streams,
        (stats pivot.filename).rms ≤ (stats s.filename).rms) ∧
      (FFMpegSoxStitcher.normalizeAudioStreams stats
          archive_streams).2 =
        { source := pivot.filename,
          output := buildNormOutputFilename pivot,
          factor := (stats pivot.filename).volAdj * (7 / 10) } ::
        (archive_streams.eraseIdx i0).map (fun s =>
          { source := s.filename,
            output := buildNormOutputFilename s,
            factor := (stats (buildNormOutputFilename pivot)).rms /
              (stats s.filename).rms }) := by
  obtain ⟨i0, pivot, hget, hmin, heq⟩ :=
    normalizeAudioStreams_eq stats archive_streams h
  refine ⟨i0, pivot, hget, hmin, ?_⟩
  rw [heq]
  simp only [List.map_map]
  rfl

/-- First concrete extracted audio stream for the stitcher
witnesses. -/
def wAudio1 : ArchiveStream :=
  { filename := "archive/2A-1.mp3",
    type := ArchiveStreamType.USER_AUDIO_STREAM,
    length := none, users := [12], offset := 2380 }

/-- Second concrete extracted audio stream for the stitcher
witnesses. -/
def wAudio2 : ArchiveStream :=
  { filename := "archive/2A-2.mp3",
    type := ArchiveStreamType.USER_AUDIO_STREAM,
    length := none, users := [11], offset := 10288 }

/-- Concrete sox stats oracle for the stitcher witnesses: stream 1 has
the lowest RMS amplitude, and the mixed file measures half a
millisecond so its millisecond length is fractional. -/
def wSoxStats : String → SoxStats := fun filename =>
  if filename = "archive/2A-1.mp3" then
    { rms := 1 / 10, volAdj := 4, lengthSeconds := 2 }
  else if filename = "archive/2A-2.mp3" then
    { rms := 1 / 5, volAdj := 3, lengthSeconds := 3 }
  else if filename = "archive/2A-1-norm.mp3" then
    { rms := 7 / 25, volAdj := 1, lengthSeconds := 2 }
  else if filename = "archive/2A.mp3" then
    { rms := 1 / 4, volAdj := 1, lengthSeconds := 1 / 2000 }
  else
    { rms := 1, volAdj := 1, lengthSeconds := 1 }

/-- Witness for C8 at a concrete input, including a concrete
evaluation of the `-norm` filename scheme. -/
theorem c8_normalize_gains_witness :
    buildNormOutputFilename wAudio1 = "archive/2A-1-norm.mp3" ∧
    ∃ i0 pivot, ([wAudio1, wAudio2] : List ArchiveStream)[i0]? =
        some pivot ∧
      (∀ s ∈ ([wAudio1, wAudio2] : List ArchiveStream),
        (wSoxStats pivot.filename).rms ≤ (wSoxStats s.filename).rms) ∧
      (FFMpegSoxStitcher.normalizeAudioStreams wSoxStats
          [wAudio1, wAudio2]).2 =
        { source := pivot.filename,
          output := buildNormOutputFilename pivot,
          factor := (wSoxStats pivot.filename).volAdj * (7 / 10) } ::
        (([wAudio1, wAudio2] : List ArchiveStream).eraseIdx i0).map
          (fun s =>
            { source := s.filename,
              output := buildNormOutputFilename s,
              factor := (wSoxStats (buildNormOutputFilename pivot)).rms /
                (wSoxStats s.filename).rms }) := by
  constructor
  · rfl
  · exact c8_normalize_gains wSoxStats [wAudio1, wAudio2]
      (List.cons_ne_nil _ _)

/-- C7 (amended): for every nonempty input, stitch returns exactly the
pair `[mp4 stream, stitched mp3 stream]`; the stitched stream has type
STITCHED_AUDIO, its users set equal to the union of the input streams'
users, its offset equal to the minimum of the input streams' offsets,
and its length equal to the stats tool's `Length (seconds)` value
times 1000 — kept as an exact (possibly fractional) number of
milliseconds, with no integer conversion; the mp4 variant preserves
the stitched stream's type, length, users and offset. -/
theorem c7_stitch_output (stats : String → SoxStats)
    (archive_streams : List ArchiveStream) (output_filename : String)
    (h : archive_streams ≠ []) :
    ∃ mp4_stream stitched_stream,
      FFMpegSoxStitcher.stitch stats archive_streams output_filename =
        Except.ok [mp4_stream, stitched_stream] ∧
      stitched_stream.type = ArchiveStreamType.STITCHED_AUDIO_STREAM ∧
      (∀ u, u ∈ stitched_stream.users ↔
        ∃ s ∈ archive_streams, u ∈ s.users) ∧
      stitched_stream.offset =
        pythonMinInt (archive_streams.map fun s => s.offset) ∧
      stitched_stream.length =
        some ((stats (output_filename ++ ".mp3")).lengthSeconds * 1000) ∧
      mp4_stream.type = stitched_stream.type ∧
      mp4_stream.length = stitched_stream.length ∧
      mp4_stream.users = stitched_stream.users ∧
      mp4_stream.offset = stitched_stream.offset := by
  cases archive_streams with
  | nil => exact absurd rfl h
  | cons a t =>
    have haudio_ne : FFMpegSoxStitcher.extractAudioStreams (a :: t)
        output_filename ≠ [] :=
      extractAudioStreams_ne_nil (a :: t) output_filename
        (List.cons_ne_nil _ _)
    have husers_perm :
        (((FFMpegSoxStitcher.normalizeAudioStreams stats
          (FFMpegSoxStitcher.extractAudioStreams (a :: t)
            output_filename)).1).map fun s => s.users).Perm
          ((a :: t).map fun s => s.users) := by
      have h1 := normalize_map_fst_perm stats (fun s => s.users)
        (fun s f o => rfl)
        (FFMpegSoxStitcher.extractAudioStreams (a :: t) output_filename)
        haudio_ne
      rw [extractAudioStreams_map_proj (fun s => s.users)
        (fun s o => rfl) (a :: t) output_filename] at h1
      exact h1
    have hoffset_perm :
        (((FFMpegSoxStitcher.normalizeAudioStreams stats
          (FFMpegSoxStitcher.extractAudioStreams (a :: t)
            output_filename)).1).map fun s => s.offset).Perm
          ((a :: t).map fun s => s.offset) := by
      have h1 := normalize_map_fst_perm stats (fun s => s.offset)
        (fun s f o => rfl)
        (FFMpegSoxStitcher.extractAudioStreams (a :: t) output_filename)
        haudio_ne
      rw [extractAudioStreams_map_proj (fun s => s.offset)
        (fun s o => rfl) (a :: t) output_filename] at h1
      exact h1
    refine ⟨_, _, rfl, rfl, ?_, ?_, rfl, rfl, rfl, rfl, rfl⟩
    · intro u
      have h1 := usersFoldl_mem
        ((FFMpegSoxStitcher.normalizeAudioStreams stats
          (FFMpegSoxStitcher.extractAudioStreams (a :: t)
            output_filename)).1) [] u
      simp only [List.not_mem_nil, false_or] at h1
      exact h1.trans (exists_users_iff_of_perm _ _ husers_perm u)
    · have hne : (((FFMpegSoxStitcher.normalizeAudioStreams stats
          (FFMpegSoxStitcher.extractAudioStreams (a :: t)
            output_filename)).1).map fun s => s.offset) ≠ [] := by
        intro he
        rw [he] at hoffset_perm
        have h2 := hoffset_perm.symm.eq_nil
        simp at h2
      exact pythonMinInt_eq_of_perm _ _ hoffset_perm hne

/-- C7 counterexample for the claim as stated: at a concrete input the
stitched stream's stored length is half a millisecond — the stats
value `0.0005` seconds times `1000.0` with no integer conversion — and
one half is not an integer, so the length is not "times 1000 as
integer milliseconds". -/
theorem c7_length_not_integer_ms :
    ∃ mp4_stream stitched_stream,
      FFMpegSoxStitcher.stitch wSoxStats [wAudio1] "archive/2A" =
        Except.ok [mp4_stream, stitched_stream] ∧
      stitched_stream.length = some (1 / 2) ∧
      ∀ n : ℤ, (n : ℚ) ≠ 1 / 2 := by
  refine ⟨_, _, rfl, ?_, ?_⟩
  · show some ((wSoxStats "archive/2A.mp3").lengthSeconds * 1000) =
      some (1 / 2)
    simp only [wSoxStats]
    rw [if_neg (by decide), if_neg (by decide), if_neg (by decide)]
    norm_num
  · intro n hn
    field_simp at hn
    have h2 : (n : ℤ) * 2 = 1 := by exact_mod_cast hn
    omega

/-- Witness for C7 (amended) at a concrete two-stream input. -/
theorem c7_stitch_output_witness :
    ∃ mp4_stream stitched_stream,
      FFMpegSoxStitcher.stitch wSoxStats [wAudio1, wAudio2]
          "archive/2A" =
        Except.ok [mp4_stream, stitched_stream] ∧
      stitched_stream.type = ArchiveStreamType.STITCHED_AUDIO_STREAM ∧
      (∀ u, u ∈ stitched_stream.users ↔
        ∃ s ∈ ([wAudio1, wAudio2] : List ArchiveStream), u ∈ s.users) ∧
      stitched_stream.offset =
        pythonMinInt (([wAudio1, wAudio2] : List ArchiveStream).map
          fun s => s.offset) ∧
      stitched_stream.length =
        some ((wSoxStats ("archive/2A" ++ ".mp3")).lengthSeconds *
          1000) ∧
      mp4_stream.type = stitched_stream.type ∧
      mp4_stream.length = stitched_stream.length ∧
      mp4_stream.users = stitched_stream.users ∧
      mp4_stream.offset = stitched_stream.offset := by
  exact c7_stitch_output wSoxStats [wAudio1, wAudio2] "archive/2A"
    (List.cons_ne_nil _ _)
